import Mathlib

/-!
Shallow embedding of the cricket_data_analyzer repository
(src/app.py and src/betting_markets.py) and verification of the
frozen claims about its statistical aggregation engine.

Conventions of the embedding:
* Python ints are `Int`, counts are `Nat`, Python float arithmetic is
  idealized as exact rational arithmetic (`ℚ`).
* Python `round(x, k)` uses round-half-to-even; it is modelled exactly by
  `rhe` / `roundTo` below on rationals.
* A JSON key that may be absent is an `Option`; `d.get(k, v)` is `.getD v`.
* `'wickets' in delivery` is modelled as the wicket list being nonempty
  (cricsheet data never carries an empty wickets array).
* Python dicts used as accumulators keyed by insertion order are modelled
  as association lists updated in place (or appended for fresh keys).
-/

namespace Cricket

/-- Round half to even to an integer (Python `round(q)` semantics,
idealized over the rationals). -/
def rhe (q : ℚ) : ℤ :=
  if Int.fract q < 1/2 then ⌊q⌋
  else if 1/2 < Int.fract q then ⌊q⌋ + 1
  else if ⌊q⌋ % 2 = 0 then ⌊q⌋ else ⌊q⌋ + 1

/-- Python `round(q, k)` (round half to even at the k-th decimal). -/
def roundTo (k : ℕ) (q : ℚ) : ℚ :=
  (rhe (q * 10 ^ k) : ℚ) / 10 ^ k

lemma fract_thousand_sub (q : ℚ) (h : Int.fract q ≠ 0) :
    ⌊(1000 : ℚ) - q⌋ = 999 - ⌊q⌋ ∧ Int.fract ((1000 : ℚ) - q) = 1 - Int.fract q := by
  have hq : (⌊q⌋ : ℚ) + Int.fract q = q := Int.floor_add_fract q
  have hr0 : 0 ≤ Int.fract q := Int.fract_nonneg q
  have hr1 : Int.fract q < 1 := Int.fract_lt_one q
  have hrpos : 0 < Int.fract q := lt_of_le_of_ne hr0 (Ne.symm h)
  have hfl : ⌊(1000 : ℚ) - q⌋ = 999 - ⌊q⌋ := by
    rw [Int.floor_eq_iff]
    constructor
    · push_cast
      linarith
    · push_cast
      linarith
  refine ⟨hfl, ?_⟩
  unfold Int.fract
  rw [hfl]
  push_cast
  linarith

/-- The two halves of a percentage split, rounded half-to-even at the same
decimal place, still sum exactly to the whole (parity argument: `⌊q⌋` and
`999 - ⌊q⌋` have opposite parity). -/
lemma rhe_add_rhe_compl (q : ℚ) : rhe q + rhe (1000 - q) = 1000 := by
  have hq : (⌊q⌋ : ℚ) + Int.fract q = q := Int.floor_add_fract q
  have hr0 : 0 ≤ Int.fract q := Int.fract_nonneg q
  have hr1 : Int.fract q < 1 := Int.fract_lt_one q
  by_cases h0 : Int.fract q = 0
  · have hint : (1000 : ℚ) - q = ((1000 - ⌊q⌋ : ℤ) : ℚ) := by
      push_cast
      linarith
    have hfl : ⌊(1000 : ℚ) - q⌋ = 1000 - ⌊q⌋ := by
      rw [hint, Int.floor_intCast]
    have hfr : Int.fract ((1000 : ℚ) - q) = 0 := by
      rw [hint, Int.fract_intCast]
    simp only [rhe, h0, hfr, hfl]
    norm_num
  · obtain ⟨hfl, hfr⟩ := fract_thousand_sub q h0
    rcases lt_trichotomy (Int.fract q) (1/2) with hlt | heq | hgt
    · have h2 : ¬ (Int.fract ((1000 : ℚ) - q) < 1/2) := by rw [hfr]; linarith
      have h3 : 1/2 < Int.fract ((1000 : ℚ) - q) := by rw [hfr]; linarith
      simp only [rhe, if_pos hlt, if_neg h2, if_pos h3, hfl]
      ring
    · have h2 : ¬ (Int.fract q < 1/2) := by rw [← heq]; exact lt_irrefl _
      have h3 : ¬ (1/2 < Int.fract q) := by rw [← heq]; exact lt_irrefl _
      have h4 : Int.fract ((1000 : ℚ) - q) = 1/2 := by rw [hfr, heq]; norm_num
      have h5 : ¬ (Int.fract ((1000 : ℚ) - q) < 1/2) := by rw [h4]; exact lt_irrefl _
      have h6 : ¬ (1/2 < Int.fract ((1000 : ℚ) - q)) := by rw [h4]; exact lt_irrefl _
      simp only [rhe, if_neg h2, if_neg h3, if_neg h5, if_neg h6, hfl]
      rcases Int.emod_two_eq ⌊q⌋ with hpar | hpar
      · have : (999 - ⌊q⌋) % 2 = 1 := by omega
        simp only [hpar, this]
        norm_num
        omega
      · have : (999 - ⌊q⌋) % 2 = 0 := by omega
        simp only [hpar, this]
        norm_num
        omega
    · have h2 : ¬ (Int.fract q < 1/2) := by linarith
      have h3 : Int.fract ((1000 : ℚ) - q) < 1/2 := by rw [hfr]; linarith
      simp only [rhe, if_neg h2, if_pos hgt, if_pos h3, hfl]
      ring

/-- Over/under line analysis, from `_calculate_market_summaries`
(src/betting_markets.py lines 514-523): strictly-greater partition of a
sample at a line, reported as raw percentages. -/
structure LineAnalysis where
  over_percentage : ℚ
  under_percentage : ℚ
  over_count : ℕ
  under_count : ℕ
  deriving DecidableEq

def lineAnalysis (data_list : List ℚ) (line : ℚ) : LineAnalysis :=
  let over_count := (data_list.filter (fun value => line < value)).length
  let under_count := data_list.length - over_count
  { over_percentage := ((over_count : ℚ) / data_list.length) * 100
    under_percentage := ((under_count : ℚ) / data_list.length) * 100
    over_count := over_count
    under_count := under_count }

/-- The predefined over/under lines table of `_calculate_market_summaries`
(src/betting_markets.py lines 477-489). -/
def over_under_lines : List (String × List ℚ) :=
  [("total_runs", [300, 320, 340, 360, 380, 400]),
   ("match_fours", [40, 45, 50, 55, 60]),
   ("match_sixes", [8, 10, 12, 15, 18, 20]),
   ("match_boundaries", [50, 55, 60, 65, 70]),
   ("highest_individual_score", [30, 40, 50, 60, 70, 80, 90, 100]),
   ("most_runs_single_over", [15, 18, 20, 22, 25]),
   ("runs_first_6_overs", [45, 50, 55, 60]),
   ("runs_first_10_overs", [80, 90, 100, 110]),
   ("runs_first_15_overs", [130, 140, 150, 160]),
   ("runs_at_fall_first_wicket", [20, 25, 30, 35, 40]),
   ("highest_opening_partnership", [25, 30, 35, 40, 45, 50])]

/-- Result record of `calculate_custom_over_under`
(src/betting_markets.py lines 639-654). -/
structure CustomOverUnder where
  line : ℚ
  over_count : ℕ
  under_count : ℕ
  over_percentage : ℚ
  under_percentage : ℚ
  total_matches : ℕ
  deriving DecidableEq

/-- `calculate_custom_over_under` (src/betting_markets.py lines 639-654);
the empty-data `{'error': ...}` branch is `none`. -/
def calculate_custom_over_under (data_list : List ℚ) (custom_line : ℚ) :
    Option CustomOverUnder :=
  if data_list.isEmpty then none
  else
    let over_count := (data_list.filter (fun value => custom_line < value)).length
    let under_count := data_list.length - over_count
    some { line := custom_line
           over_count := over_count
           under_count := under_count
           over_percentage := roundTo 1 (((over_count : ℚ) / data_list.length) * 100)
           under_percentage := roundTo 1 (((under_count : ℚ) / data_list.length) * 100)
           total_matches := data_list.length }

lemma over_count_le_length (data_list : List ℚ) (line : ℚ) :
    (data_list.filter (fun value => line < value)).length ≤ data_list.length :=
  List.length_filter_le _ _

lemma raw_percentages_sum (n o : ℕ) (ho : o ≤ n) (hn : n ≠ 0) :
    ((o : ℚ) / n) * 100 + (((n - o : ℕ) : ℚ) / n) * 100 = 100 := by
  have hcast : ((n - o : ℕ) : ℚ) = (n : ℚ) - o := by
    push_cast [Nat.cast_sub ho]
    ring
  have hn' : (n : ℚ) ≠ 0 := Nat.cast_ne_zero.mpr hn
  rw [hcast]
  field_simp
  ring

lemma roundTo1_sum (x y : ℚ) (hxy : x + y = 100) :
    roundTo 1 x + roundTo 1 y = 100 := by
  have h10 : y * 10 = 1000 - x * 10 := by linarith
  have h := rhe_add_rhe_compl (x * 10)
  have hc : ((rhe (x * 10) : ℤ) : ℚ) + ((rhe (1000 - x * 10) : ℤ) : ℚ) = 1000 := by
    exact_mod_cast h
  unfold roundTo
  rw [pow_one, h10]
  linarith

/-- C5: for every non-empty numeric market sample and every threshold line L
(predefined lines of `_calculate_market_summaries` or a caller-supplied line
of `calculate_custom_over_under`), the over count is the number of sample
values strictly greater than L, the under count is the sample size minus the
over count, and over-percentage plus under-percentage equals 100% (exactly,
both for the raw percentages and for the half-even-rounded reported ones). -/
theorem c5_over_under_partition (data_list : List ℚ) (L : ℚ) (h : data_list ≠ []) :
    (lineAnalysis data_list L).over_count
        = (data_list.filter (fun value => L < value)).length
  ∧ (lineAnalysis data_list L).under_count
        = data_list.length - (lineAnalysis data_list L).over_count
  ∧ (lineAnalysis data_list L).over_percentage
        + (lineAnalysis data_list L).under_percentage = 100
  ∧ ∃ r, calculate_custom_over_under data_list L = some r
      ∧ r.over_count = (data_list.filter (fun value => L < value)).length
      ∧ r.under_count = data_list.length - r.over_count
      ∧ r.over_percentage + r.under_percentage = 100 := by
  have hn : data_list.length ≠ 0 := by
    simpa [List.length_eq_zero] using h
  have ho : (data_list.filter (fun value => L < value)).length ≤ data_list.length :=
    over_count_le_length data_list L
  have hraw := raw_percentages_sum data_list.length
    (data_list.filter (fun value => L < value)).length ho hn
  have hne : ¬ data_list.isEmpty := by
    simpa [List.isEmpty_iff] using h
  refine ⟨rfl, rfl, hraw, ?_⟩
  have hcc : calculate_custom_over_under data_list L = some
      { line := L
        over_count := (data_list.filter (fun value => L < value)).length
        under_count := data_list.length
          - (data_list.filter (fun value => L < value)).length
        over_percentage := roundTo 1
          ((((data_list.filter (fun value => L < value)).length : ℚ)
            / data_list.length) * 100)
        under_percentage := roundTo 1
          ((((data_list.length
              - (data_list.filter (fun value => L < value)).length : ℕ) : ℚ)
            / data_list.length) * 100)
        total_matches := data_list.length } := by
    simp [calculate_custom_over_under, hne]
  exact ⟨_, hcc, rfl, rfl, roundTo1_sum _ _ hraw⟩

theorem c5_over_under_partition_witness :
    (lineAnalysis [(1 : ℚ), 2, 3] 2).over_percentage
      + (lineAnalysis [(1 : ℚ), 2, 3] 2).under_percentage = 100 :=
  (c5_over_under_partition [(1 : ℚ), 2, 3] 2 (List.cons_ne_nil _ _)).2.2.1

/-! ## Data model (input schema of §6, one object per match) -/

/-- The structured `runs` object of a delivery: `{batter, extras, total}`. -/
structure RunsInfo where
  batter : Int
  extras : Int
  total : Int
  deriving DecidableEq

/-- The keys of `delivery['extras']` that any modelled computation inspects
(`wides` / `noballs` presence decides legality; the `wides` value is summed
in `get_betting_market_summary_dict`). -/
structure ExtrasInfo where
  wides : Option Int
  noballs : Option Int
  deriving DecidableEq

structure WicketInfo where
  kind : Option String
  deriving DecidableEq

structure Delivery where
  batter : Option String
  bowler : Option String
  runs : RunsInfo
  extras : Option ExtrasInfo
  wickets : List WicketInfo
  deriving DecidableEq

structure OverRec where
  over : Option Int
  deliveries : List Delivery
  deriving DecidableEq

structure InningRec where
  team : Option String
  overs : List OverRec
  deriving DecidableEq

structure TossInfo where
  winner : Option String
  decision : Option String
  deriving DecidableEq

structure OutcomeInfo where
  winner : Option String
  result : Option String
  deriving DecidableEq

structure MatchInfo where
  teams : List String
  toss : Option TossInfo
  outcome : Option OutcomeInfo
  venue : Option String
  players : List (String × List String)
  deriving DecidableEq

structure MatchData where
  info : MatchInfo
  innings : List InningRec
  deriving DecidableEq

/-- `info.get('outcome', {}).get('winner')`. -/
def MatchInfo.outcomeWinner (i : MatchInfo) : Option String := i.outcome.bind (·.winner)

/-- `info.get('toss', {}).get('winner')`. -/
def MatchInfo.tossWinner (i : MatchInfo) : Option String := i.toss.bind (·.winner)

/-- `info.get('toss', {}).get('decision')`. -/
def MatchInfo.tossDecision (i : MatchInfo) : Option String := i.toss.bind (·.decision)

/-- `'extras' not in delivery or not any(k in delivery['extras'] for k in
['wides', 'noballs'])` — the legality test used throughout the source. -/
def isLegalDelivery (d : Delivery) : Bool :=
  match d.extras with
  | none => true
  | some e => !(e.wides.isSome || e.noballs.isSome)

/-- `_categorize_runs` (src/betting_markets.py lines 443-456). -/
def categorize_runs (runs : Int) : String :=
  if runs = 1 then "single"
  else if runs = 2 then "two"
  else if runs = 3 then "three"
  else if runs = 4 then "four"
  else if runs = 6 then "six"
  else "others"

/-- Does the char list `s` start with the char list `p`? -/
def listHasPre : List Char → List Char → Bool
  | _, [] => true
  | [], _ :: _ => false
  | a :: s, b :: p => a == b && listHasPre s p

/-- Does the char list contain `p` as a contiguous run? -/
def listHasSub (p : List Char) : List Char → Bool
  | [] => listHasPre [] p
  | s@(_ :: t) => listHasPre s p || listHasSub p t

/-- Python's substring containment `pat in s`. -/
def strContains (s pat : String) : Bool := listHasSub pat.toList s.toList

/-- ASCII lowercase of one character (the range Python's `.lower()`
affects in cricsheet dismissal-kind strings). -/
def lowerChar (c : Char) : Char :=
  if 65 ≤ c.toNat ∧ c.toNat ≤ 90 then Char.ofNat (c.toNat + 32) else c

/-- Python's `str.lower()` on ASCII strings. -/
def strLower (s : String) : String := String.mk (s.data.map lowerChar)

/-- `wicket.get('kind', 'others').lower()`. -/
def wicketKind (w : WicketInfo) : String := strLower (w.kind.getD "others")

/-- `_categorize_wicket_method` (src/betting_markets.py lines 458-471). -/
def categorize_wicket_method (kind : String) : String :=
  if strContains kind "caught" then "caught"
  else if strContains kind "bowled" then "bowled"
  else if strContains kind "lbw" then "lbw"
  else if strContains kind "run out" then "run_out"
  else if strContains kind "stumped" then "stumped"
  else "others"

/-! ## `_calculate_match_stats` (src/betting_markets.py lines 131-289) -/

/-- `stats['team_stats'][team]` (initialized at lines 162-167; the
`boundaries` field is recomputed in the final pass at lines 285-287). -/
structure TeamBMStats where
  runs : Int
  fours : Nat
  sixes : Nat
  boundaries : Nat
  wickets_caught : Nat
  highest_individual : Int
  most_runs_single_over : Int
  fifty : Bool
  hundred : Bool
  opening_partnership : Int
  deriving DecidableEq

def initTeamBMStats : TeamBMStats :=
  { runs := 0, fours := 0, sixes := 0, boundaries := 0, wickets_caught := 0,
    highest_individual := 0, most_runs_single_over := 0,
    fifty := false, hundred := false, opening_partnership := 0 }

/-- The `stats` dict of `_calculate_match_stats` (lines 133-153).  The
unused `team_milestones` key is omitted. -/
structure BMStats where
  total_runs : Int
  total_fours : Nat
  total_sixes : Nat
  total_boundaries : Nat
  team_stats : List (String × TeamBMStats)
  highest_individual_score : Int
  most_runs_single_over : Int
  first_wicket_method : Option String
  first_wicket_runs : Int
  first_ball_dot : Bool
  six_boundaries_in_over : Bool
  first_scoring_shot : Option String
  fifty : Bool
  hundred : Bool
  runs_first_6 : Int
  runs_first_10 : Int
  runs_first_15 : Int
  total_runs_out : Int
  opening_partnerships : List Int
  deriving DecidableEq

def initBMStats : BMStats :=
  { total_runs := 0, total_fours := 0, total_sixes := 0, total_boundaries := 0,
    team_stats := [], highest_individual_score := 0, most_runs_single_over := 0,
    first_wicket_method := none, first_wicket_runs := 0, first_ball_dot := false,
    six_boundaries_in_over := false, first_scoring_shot := none,
    fifty := false, hundred := false, runs_first_6 := 0, runs_first_10 := 0,
    runs_first_15 := 0, total_runs_out := 0, opening_partnerships := [] }

/-- In-place update of an insertion-ordered dict entry (append if fresh). -/
def setAssoc {α : Type} (l : List (String × α)) (k : String) (v : α) :
    List (String × α) :=
  if l.any (fun p => p.1 == k) then l.map (fun p => if p.1 == k then (k, v) else p)
  else l ++ [(k, v)]

/-- `defaultdict(int)` increment: `l[k] += v`. -/
def bumpAssoc (l : List (String × Int)) (k : String) (v : Int) :
    List (String × Int) :=
  if l.any (fun p => p.1 == k) then
    l.map (fun p => if p.1 == k then (p.1, p.2 + v) else p)
  else l ++ [(k, v)]

/-- Innings-local mutable state of `_calculate_match_stats`
(lines 156, 169-175). -/
structure InnState where
  st : BMStats
  first_ball_processed : Bool
  ts : TeamBMStats
  batsman_scores : List (String × Int)
  current_partnership : Int
  wickets_fallen : Nat
  first_wicket_found : Bool
  deriving DecidableEq

/-- Over-local mutable state (`over_runs`, `over_boundaries`; lines 178-179). -/
structure OverState where
  inn : InnState
  over_runs : Int
  over_boundaries : Nat
  deriving DecidableEq

/-- First-ball analysis (lines 190-195). -/
def pd_first_ball (is_legal : Bool) (runs total : Int) (s : InnState) : InnState :=
  if !s.first_ball_processed && is_legal then
    { s with
      st := { s.st with
        first_ball_dot := total == 0
        first_scoring_shot :=
          if 0 < runs then some (categorize_runs runs) else s.st.first_scoring_shot }
      first_ball_processed := true }
  else s

/-- Run accumulation (lines 197-200). -/
def pd_accumulate (total : Int) (os : OverState) : OverState :=
  { os with
    inn := { os.inn with
      st := { os.inn.st with total_runs := os.inn.st.total_runs + total }
      ts := { os.inn.ts with runs := os.inn.ts.runs + total } }
    over_runs := os.over_runs + total }

/-- Batsman individual score tracking (lines 202-204). -/
def pd_batsman (batter : Option String) (runs : Int) (s : InnState) : InnState :=
  { s with batsman_scores := bumpAssoc s.batsman_scores (batter.getD "Unknown") runs }

/-- Opening partnership accumulation (lines 206-208). -/
def pd_partnership (runs : Int) (s : InnState) : InnState :=
  if s.wickets_fallen == 0 then
    { s with current_partnership := s.current_partnership + runs }
  else s

/-- Boundary counting (lines 210-218). -/
def pd_boundaries (runs : Int) (os : OverState) : OverState :=
  if runs == 4 then
    { os with
      inn := { os.inn with
        st := { os.inn.st with total_fours := os.inn.st.total_fours + 1 }
        ts := { os.inn.ts with fours := os.inn.ts.fours + 1 } }
      over_boundaries := os.over_boundaries + 1 }
  else if runs == 6 then
    { os with
      inn := { os.inn with
        st := { os.inn.st with total_sixes := os.inn.st.total_sixes + 1 }
        ts := { os.inn.ts with sixes := os.inn.ts.sixes + 1 } }
      over_boundaries := os.over_boundaries + 1 }
  else os

/-- Wicket handling (lines 220-240): first-wicket analysis, opening
partnership recording, and caught counting. -/
def pd_wickets (wickets : List WicketInfo) (s : InnState) : InnState :=
  match wickets with
  | [] => s
  | w :: _ =>
    let s :=
      if !s.first_wicket_found then
        { s with
          st := { s.st with
            first_wicket_runs := s.current_partnership
            opening_partnerships := s.st.opening_partnerships ++ [s.current_partnership]
            first_wicket_method := some (categorize_wicket_method (wicketKind w)) }
          ts := { s.ts with opening_partnership := s.current_partnership }
          first_wicket_found := true }
      else s
    let caught := (wickets.filter (fun wi => strContains (wicketKind wi) "caught")).length
    { s with
      ts := { s.ts with wickets_caught := s.ts.wickets_caught + caught }
      wickets_fallen := s.wickets_fallen + 1 }

/-- Phase-wise runs, first innings only (lines 242-249); `over_idx` is the
enumeration index of the over, not its `over` key. -/
def pd_phase (inning_idx over_idx : ℕ) (total : Int) (s : InnState) : InnState :=
  if inning_idx == 0 then
    let st := s.st
    let st := if over_idx < 6 then { st with runs_first_6 := st.runs_first_6 + total } else st
    let st := if over_idx < 10 then { st with runs_first_10 := st.runs_first_10 + total } else st
    let st := if over_idx < 15 then { st with runs_first_15 := st.runs_first_15 + total } else st
    { s with st := st }
  else s

/-- The delivery body of `_calculate_match_stats` (lines 181-249), with the
values read from `delivery` passed as arguments (shared with the raw,
exception-aware layer below). -/
def process_delivery (inning_idx over_idx : ℕ) (is_legal : Bool)
    (runs total : Int) (batter : Option String) (wickets : List WicketInfo)
    (os : OverState) : OverState :=
  let os := { os with inn := pd_first_ball is_legal runs total os.inn }
  let os := pd_accumulate total os
  let os := { os with inn := pd_batsman batter runs os.inn }
  let os := { os with inn := pd_partnership runs os.inn }
  let os := pd_boundaries runs os
  let os := { os with inn := pd_wickets wickets os.inn }
  { os with inn := pd_phase inning_idx over_idx total os.inn }

def process_delivery_step (inning_idx over_idx : ℕ) (os : OverState) (d : Delivery) :
    OverState :=
  process_delivery inning_idx over_idx (isLegalDelivery d)
    d.runs.batter d.runs.total d.batter d.wickets os

/-- Post-processing of one over (lines 251-259). -/
def over_post (os : OverState) : InnState :=
  let st := os.inn.st
  let st := if 6 ≤ os.over_boundaries then { st with six_boundaries_in_over := true } else st
  let st := if st.most_runs_single_over < os.over_runs then
      { st with most_runs_single_over := os.over_runs } else st
  let ts := os.inn.ts
  let ts := if ts.most_runs_single_over < os.over_runs then
      { ts with most_runs_single_over := os.over_runs } else ts
  { os.inn with st := st, ts := ts }

/-- One over of `_calculate_match_stats` (lines 177-259). -/
def process_over (inning_idx over_idx : ℕ) (s : InnState) (o : OverRec) : InnState :=
  over_post (o.deliveries.foldl (process_delivery_step inning_idx over_idx)
    { inn := s, over_runs := 0, over_boundaries := 0 })

def list_max (v : Int) (vs : List Int) : Int := vs.foldl max v

/-- Individual scores and milestones (lines 261-276), applied after the
over loop of one innings. -/
def apply_milestones (s : InnState) : InnState :=
  match s.batsman_scores with
  | [] => s
  | (_, v) :: rest =>
    let team_highest := list_max v (rest.map Prod.snd)
    let scores := s.batsman_scores.map Prod.snd
    let ts := { s.ts with highest_individual := team_highest }
    let st :=
      if s.st.highest_individual_score < team_highest then
        { s.st with highest_individual_score := team_highest }
      else s.st
    let has50 := scores.any (fun x => decide (50 ≤ x))
    let has100 := scores.any (fun x => decide (100 ≤ x))
    { s with
      st := { st with fifty := st.fifty || has50, hundred := st.hundred || has100 }
      ts := { ts with fifty := ts.fifty || has50, hundred := ts.hundred || has100 } }

/-- The second delivery loop of an innings (lines 279-281): extras total
over the innings' deliveries in order. -/
def sum_extras_inning (inn : InningRec) : Int :=
  (((inn.overs.map (fun o => o.deliveries)).flatten).map (fun d => d.runs.extras)).sum

/-- The innings-local state at the start of one innings (lines 161-175):
the team record is pulled from the dict (fresh if absent) and the trackers
are reset. -/
def innInit (stats0 : BMStats) (fbp0 : Bool) (inn : InningRec) : InnState :=
  { st := stats0, first_ball_processed := fbp0,
    ts := ((stats0.team_stats.lookup (inn.team.getD "Unknown")).getD initTeamBMStats),
    batsman_scores := [], current_partnership := 0, wickets_fallen := 0,
    first_wicket_found := false }

/-- The over loop of one innings (line 177). -/
def innFold (inning_idx : ℕ) (inn : InningRec) (s : InnState) : InnState :=
  (inn.overs.enum).foldl (fun s q => process_over inning_idx q.1 s q.2) s

/-- One innings of `_calculate_match_stats` (lines 158-281). -/
def process_inning (acc : BMStats × Bool) (p : ℕ × InningRec) : BMStats × Bool :=
  let inn := p.2
  let team := inn.team.getD "Unknown"
  let s2 := apply_milestones (innFold p.1 inn (innInit acc.1 acc.2 inn))
  let st := { s2.st with total_runs_out := s2.st.total_runs_out + sum_extras_inning inn }
  ({ st with team_stats := setAssoc st.team_stats team s2.ts }, s2.first_ball_processed)

/-- `_calculate_match_stats` (src/betting_markets.py lines 131-289). -/
def calculate_match_stats (md : MatchData) : BMStats :=
  let st := ((md.innings.enum).foldl (fun acc q => process_inning acc q)
    (initBMStats, false)).1
  { st with
    total_boundaries := st.total_fours + st.total_sixes
    team_stats := st.team_stats.map
      (fun p => (p.1, { p.2 with boundaries := p.2.fours + p.2.sixes })) }

/-! ## Flattened delivery sequences and fold projections -/

def inningDeliveries (inn : InningRec) : List Delivery :=
  (inn.overs.map (fun o => o.deliveries)).flatten

def matchDeliveries (md : MatchData) : List Delivery :=
  (md.innings.map inningDeliveries).flatten

lemma proj_foldl_deliveries {β : Type} (proj : InnState → β)
    (step : β → Delivery → β)
    (hd : ∀ i o os d, proj ((process_delivery_step i o os d).inn) = step (proj os.inn) d)
    (i o : ℕ) (ds : List Delivery) (os : OverState) :
    proj ((ds.foldl (process_delivery_step i o) os).inn) = ds.foldl step (proj os.inn) := by
  induction ds generalizing os with
  | nil => rfl
  | cons d ds ih => rw [List.foldl_cons, List.foldl_cons, ih, hd]

lemma proj_process_over {β : Type} (proj : InnState → β) (step : β → Delivery → β)
    (hd : ∀ i o os d, proj ((process_delivery_step i o os d).inn) = step (proj os.inn) d)
    (hpost : ∀ os, proj (over_post os) = proj os.inn)
    (i o : ℕ) (s : InnState) (ov : OverRec) :
    proj (process_over i o s ov) = ov.deliveries.foldl step (proj s) := by
  unfold process_over
  rw [hpost, proj_foldl_deliveries proj step hd]

lemma proj_foldl_overs {β : Type} (proj : InnState → β) (step : β → Delivery → β)
    (hd : ∀ i o os d, proj ((process_delivery_step i o os d).inn) = step (proj os.inn) d)
    (hpost : ∀ os, proj (over_post os) = proj os.inn)
    (i : ℕ) (l : List (ℕ × OverRec)) (s : InnState) :
    proj (l.foldl (fun s q => process_over i q.1 s q.2) s)
      = ((l.map (fun q => q.2.deliveries)).flatten).foldl step (proj s) := by
  induction l generalizing s with
  | nil => rfl
  | cons q l ih =>
    rw [List.foldl_cons, ih, List.map_cons, List.flatten_cons, List.foldl_append,
      proj_process_over proj step hd hpost]

lemma enum_map_deliveries (overs : List OverRec) :
    (overs.enum.map (fun q => q.2.deliveries)).flatten
      = (overs.map (fun o => o.deliveries)).flatten := by
  have h : (fun q : ℕ × OverRec => q.2.deliveries)
      = (fun o : OverRec => o.deliveries) ∘ Prod.snd := rfl
  rw [h, ← List.map_map, List.enum_map_snd]

lemma proj_innings_overs {β : Type} (proj : InnState → β) (step : β → Delivery → β)
    (hd : ∀ i o os d, proj ((process_delivery_step i o os d).inn) = step (proj os.inn) d)
    (hpost : ∀ os, proj (over_post os) = proj os.inn)
    (i : ℕ) (inn : InningRec) (s : InnState) :
    proj ((inn.overs.enum).foldl (fun s q => process_over i q.1 s q.2) s)
      = (inningDeliveries inn).foldl step (proj s) := by
  rw [proj_foldl_overs proj step hd hpost, enum_map_deliveries]
  rfl

/-! ### The running total-runs component -/

def trStep (b : Int) (d : Delivery) : Int := b + d.runs.total

lemma tr_first_ball (l : Bool) (r t : Int) (s : InnState) :
    (pd_first_ball l r t s).st.total_runs = s.st.total_runs := by
  unfold pd_first_ball
  split <;> rfl

lemma tr_accumulate (t : Int) (os : OverState) :
    (pd_accumulate t os).inn.st.total_runs = os.inn.st.total_runs + t := rfl

lemma tr_boundaries (r : Int) (os : OverState) :
    (pd_boundaries r os).inn.st.total_runs = os.inn.st.total_runs := by
  unfold pd_boundaries
  repeat' split
  all_goals rfl

lemma tr_wickets (w : List WicketInfo) (s : InnState) :
    (pd_wickets w s).st.total_runs = s.st.total_runs := by
  unfold pd_wickets
  rcases w with _ | ⟨w, ws⟩
  · rfl
  · dsimp only
    split <;> rfl

lemma tr_phase (i o : ℕ) (t : Int) (s : InnState) :
    (pd_phase i o t s).st.total_runs = s.st.total_runs := by
  unfold pd_phase
  repeat' split
  all_goals rfl

lemma tr_batsman (b : Option String) (r : Int) (s : InnState) :
    (pd_batsman b r s).st.total_runs = s.st.total_runs := rfl

lemma tr_partnership (r : Int) (s : InnState) :
    (pd_partnership r s).st.total_runs = s.st.total_runs := by
  unfold pd_partnership
  split <;> rfl

lemma total_runs_process_delivery (i o : ℕ) (os : OverState) (d : Delivery) :
    ((process_delivery_step i o os d).inn).st.total_runs
      = trStep (os.inn.st.total_runs) d := by
  unfold process_delivery_step process_delivery
  dsimp only
  rw [tr_phase, tr_wickets, tr_boundaries]
  dsimp only
  rw [tr_partnership, tr_batsman, tr_accumulate]
  dsimp only
  rw [tr_first_ball]
  rfl

lemma total_runs_over_post (os : OverState) :
    (over_post os).st.total_runs = os.inn.st.total_runs := by
  unfold over_post
  dsimp only
  repeat' split
  all_goals rfl

lemma total_runs_apply_milestones (s : InnState) :
    (apply_milestones s).st.total_runs = s.st.total_runs := by
  unfold apply_milestones
  dsimp only
  repeat' split
  all_goals rfl

lemma foldl_trStep (ds : List Delivery) (b : Int) :
    ds.foldl trStep b = b + ((ds.map (fun d => d.runs.total)).sum) := by
  induction ds generalizing b with
  | nil => simp
  | cons d ds ih =>
    rw [List.foldl_cons, ih]
    simp [trStep]
    ring

lemma process_inning_total_runs (acc : BMStats × Bool) (p : ℕ × InningRec) :
    (process_inning acc p).1.total_runs
      = acc.1.total_runs + (((inningDeliveries p.2).map (fun d => d.runs.total)).sum) := by
  have h0 : (process_inning acc p).1.total_runs
      = (apply_milestones (innFold p.1 p.2 (innInit acc.1 acc.2 p.2))).st.total_runs := rfl
  rw [h0, total_runs_apply_milestones]
  unfold innFold
  rw [proj_innings_overs (fun s => s.st.total_runs) trStep
    total_runs_process_delivery total_runs_over_post]
  rw [show (innInit acc.1 acc.2 p.2).st.total_runs = acc.1.total_runs from rfl,
    foldl_trStep]

lemma calculate_match_stats_total_runs (md : MatchData) :
    (calculate_match_stats md).total_runs
      = (((matchDeliveries md).map (fun d => d.runs.total)).sum) := by
  unfold calculate_match_stats matchDeliveries
  have main : ∀ (l : List (ℕ × InningRec)) (acc : BMStats × Bool),
      (l.foldl (fun acc q => process_inning acc q) acc).1.total_runs
        = acc.1.total_runs
          + ((((l.map (fun q => inningDeliveries q.2)).flatten).map
              (fun d => d.runs.total)).sum) := by
    intro l
    induction l with
    | nil => intro acc; simp
    | cons q l ih =>
      intro acc
      rw [List.foldl_cons, ih, process_inning_total_runs]
      simp [List.map_append]
      ring
  have h := main (md.innings.enum) (initBMStats, false)
  have he : (md.innings.enum.map (fun q => inningDeliveries q.2))
      = md.innings.map inningDeliveries := by
    have hc : (fun q : ℕ × InningRec => inningDeliveries q.2)
        = inningDeliveries ∘ Prod.snd := rfl
    rw [hc, ← List.map_map, List.enum_map_snd]
  rw [he] at h
  simpa [initBMStats] using h

/-! ### The opening-partnership components -/

structure PartView where
  cp : Int
  wf : Nat
  fwf : Bool
  ops : List Int
  fwr : Int
  deriving DecidableEq

def partView (s : InnState) : PartView :=
  { cp := s.current_partnership, wf := s.wickets_fallen, fwf := s.first_wicket_found,
    ops := s.st.opening_partnerships, fwr := s.st.first_wicket_runs }

/-- The wicket block's action on the partnership view. -/
def pwStep (pv : PartView) (w : List WicketInfo) : PartView :=
  match w with
  | [] => pv
  | _ :: _ =>
    if !pv.fwf then
      { pv with wf := pv.wf + 1, fwf := true, ops := pv.ops ++ [pv.cp], fwr := pv.cp }
    else { pv with wf := pv.wf + 1 }

def partStep (pv : PartView) (d : Delivery) : PartView :=
  pwStep { pv with cp := if pv.wf == 0 then pv.cp + d.runs.batter else pv.cp }
    d.wickets

lemma pv_first_ball (l : Bool) (r t : Int) (s : InnState) :
    partView (pd_first_ball l r t s) = partView s := by
  unfold pd_first_ball partView
  split <;> rfl

lemma pv_accumulate (t : Int) (os : OverState) :
    partView (pd_accumulate t os).inn = partView os.inn := rfl

lemma pv_batsman (b : Option String) (r : Int) (s : InnState) :
    partView (pd_batsman b r s) = partView s := rfl

lemma pv_boundaries (r : Int) (os : OverState) :
    partView (pd_boundaries r os).inn = partView os.inn := by
  unfold pd_boundaries partView
  repeat' split
  all_goals rfl

lemma pv_phase (i o : ℕ) (t : Int) (s : InnState) :
    partView (pd_phase i o t s) = partView s := by
  unfold pd_phase partView
  repeat' split
  all_goals rfl

lemma pv_partnership (r : Int) (s : InnState) :
    partView (pd_partnership r s)
      = { partView s with
          cp := if (partView s).wf == 0 then (partView s).cp + r
                else (partView s).cp } := by
  unfold pd_partnership partView
  split <;> simp_all

lemma pv_wickets (w : List WicketInfo) (s : InnState) :
    partView (pd_wickets w s) = pwStep (partView s) w := by
  unfold pd_wickets pwStep partView
  rcases w with _ | ⟨w, ws⟩ <;> dsimp only <;> split_ifs <;> rfl

lemma partView_process_delivery (i o : ℕ) (os : OverState) (d : Delivery) :
    partView ((process_delivery_step i o os d).inn) = partStep (partView os.inn) d := by
  unfold process_delivery_step process_delivery
  dsimp only
  rw [pv_phase, pv_wickets, pv_boundaries]
  dsimp only
  rw [pv_partnership, pv_batsman, pv_accumulate]
  dsimp only
  rw [pv_first_ball]
  rfl

lemma partView_over_post (os : OverState) :
    partView (over_post os) = partView os.inn := by
  unfold over_post partView
  dsimp only
  repeat' split
  all_goals rfl

lemma partView_apply_milestones (s : InnState) :
    partView (apply_milestones s) = partView s := by
  unfold apply_milestones partView
  dsimp only
  repeat' split
  all_goals rfl

/-- The per-innings opening-partnership value: batter runs accumulated up to
and including the first wicket-carrying delivery (`None` when the innings
has no wicket).  This is the claim-level reference definition the fold is
compared against. -/
def opSpecB (cp : Int) : List Delivery → Option Int
  | [] => none
  | d :: ds =>
    let cp' := cp + d.runs.batter
    match d.wickets with
    | [] => opSpecB cp' ds
    | _ :: _ => some cp'

lemma partStep_no_wicket (pv : PartView) (d : Delivery) (hw : d.wickets = []) :
    partStep pv d
      = { pv with cp := (if pv.wf == 0 then pv.cp + d.runs.batter else pv.cp) } := by
  unfold partStep pwStep
  rw [hw]

lemma partStep_wicket_first (pv : PartView) (d : Delivery) (w : WicketInfo)
    (ws : List WicketInfo) (hw : d.wickets = w :: ws) (hf : pv.fwf = false) :
    partStep pv d
      = { cp := if pv.wf == 0 then pv.cp + d.runs.batter else pv.cp,
          wf := pv.wf + 1, fwf := true,
          ops := pv.ops ++ [if pv.wf == 0 then pv.cp + d.runs.batter else pv.cp],
          fwr := if pv.wf == 0 then pv.cp + d.runs.batter else pv.cp } := by
  unfold partStep pwStep
  rw [hw]
  simp [hf]

lemma partStep_wicket_later (pv : PartView) (d : Delivery) (w : WicketInfo)
    (ws : List WicketInfo) (hw : d.wickets = w :: ws) (hf : pv.fwf = true) :
    partStep pv d
      = { pv with
          cp := (if pv.wf == 0 then pv.cp + d.runs.batter else pv.cp)
          wf := pv.wf + 1 } := by
  unfold partStep pwStep
  rw [hw]
  simp [hf]

lemma foldl_partStep_frozen (ds : List Delivery) (pv : PartView) (h : pv.fwf = true) :
    (ds.foldl partStep pv).ops = pv.ops ∧ (ds.foldl partStep pv).fwr = pv.fwr := by
  induction ds generalizing pv with
  | nil => exact ⟨rfl, rfl⟩
  | cons d ds ih =>
    rw [List.foldl_cons]
    have hstep : (partStep pv d).ops = pv.ops ∧ (partStep pv d).fwr = pv.fwr
        ∧ (partStep pv d).fwf = true := by
      rcases hw : d.wickets with _ | ⟨w, ws⟩
      · rw [partStep_no_wicket pv d hw]
        exact ⟨rfl, rfl, h⟩
      · rw [partStep_wicket_later pv d w ws hw h]
        exact ⟨rfl, rfl, h⟩
    obtain ⟨h1, h2, h3⟩ := hstep
    obtain ⟨ih1, ih2⟩ := ih (partStep pv d) h3
    exact ⟨ih1.trans h1, ih2.trans h2⟩

lemma foldl_partStep_char (ds : List Delivery) (cp : Int) (ops0 : List Int) (fwr0 : Int) :
    (ds.foldl partStep { cp := cp, wf := 0, fwf := false, ops := ops0, fwr := fwr0 }).ops
        = ops0 ++ (opSpecB cp ds).toList
    ∧ (ds.foldl partStep { cp := cp, wf := 0, fwf := false, ops := ops0, fwr := fwr0 }).fwr
        = (opSpecB cp ds).getD fwr0 := by
  induction ds generalizing cp with
  | nil => simp [opSpecB]
  | cons d ds ih =>
    rw [List.foldl_cons]
    rcases hw : d.wickets with _ | ⟨w, ws⟩
    · rw [partStep_no_wicket _ d hw]
      simpa [opSpecB, hw] using ih (cp + d.runs.batter)
    · rw [partStep_wicket_first _ d w ws hw rfl]
      obtain ⟨h1, h2⟩ := foldl_partStep_frozen ds
        { cp := cp + d.runs.batter, wf := 0 + 1, fwf := true,
          ops := ops0 ++ [cp + d.runs.batter], fwr := cp + d.runs.batter } rfl
      simp only [beq_self_eq_true, if_pos] at *
      rw [h1, h2]
      simp [opSpecB, hw]

lemma process_inning_partnership (acc : BMStats × Bool) (p : ℕ × InningRec) :
    (process_inning acc p).1.opening_partnerships
        = acc.1.opening_partnerships ++ (opSpecB 0 (inningDeliveries p.2)).toList
    ∧ (process_inning acc p).1.first_wicket_runs
        = (opSpecB 0 (inningDeliveries p.2)).getD acc.1.first_wicket_runs := by
  have h : partView (innFold p.1 p.2 (innInit acc.1 acc.2 p.2))
      = (inningDeliveries p.2).foldl partStep
          { cp := 0, wf := 0, fwf := false,
            ops := acc.1.opening_partnerships, fwr := acc.1.first_wicket_runs } := by
    unfold innFold
    rw [proj_innings_overs partView partStep
      partView_process_delivery partView_over_post]
    rfl
  obtain ⟨hc1, hc2⟩ := foldl_partStep_char (inningDeliveries p.2) 0
    acc.1.opening_partnerships acc.1.first_wicket_runs
  constructor
  · have h1 : (process_inning acc p).1.opening_partnerships
        = (partView (apply_milestones (innFold p.1 p.2 (innInit acc.1 acc.2 p.2)))).ops := rfl
    rw [h1, partView_apply_milestones, h]
    exact hc1
  · have h2 : (process_inning acc p).1.first_wicket_runs
        = (partView (apply_milestones (innFold p.1 p.2 (innInit acc.1 acc.2 p.2)))).fwr := rfl
    rw [h2, partView_apply_milestones, h]
    exact hc2

lemma calculate_match_stats_partnerships (md : MatchData) :
    (calculate_match_stats md).opening_partnerships
      = md.innings.filterMap (fun inn => opSpecB 0 (inningDeliveries inn)) := by
  unfold calculate_match_stats
  have main : ∀ (l : List (ℕ × InningRec)) (acc : BMStats × Bool),
      (l.foldl (fun acc q => process_inning acc q) acc).1.opening_partnerships
        = acc.1.opening_partnerships
          ++ l.filterMap (fun q => opSpecB 0 (inningDeliveries q.2)) := by
    intro l
    induction l with
    | nil => intro acc; simp
    | cons q l ih =>
      intro acc
      rw [List.foldl_cons, ih, (process_inning_partnership acc q).1]
      rcases hop : opSpecB 0 (inningDeliveries q.2) with _ | v <;>
        simp [List.filterMap_cons, hop]
  have h := main (md.innings.enum) (initBMStats, false)
  have he : (md.innings.enum.filterMap (fun q => opSpecB 0 (inningDeliveries q.2)))
      = md.innings.filterMap (fun inn => opSpecB 0 (inningDeliveries inn)) := by
    have hc : (fun q : ℕ × InningRec => opSpecB 0 (inningDeliveries q.2))
        = (fun inn => opSpecB 0 (inningDeliveries inn)) ∘ Prod.snd := rfl
    rw [hc, ← List.filterMap_map, List.enum_map_snd]
  rw [he] at h
  simpa [initBMStats] using h

/-! ### The first-ball components -/

structure FBView where
  fbp : Bool
  dot : Bool
  fss : Option String
  deriving DecidableEq

def fbView (s : InnState) : FBView :=
  { fbp := s.first_ball_processed, dot := s.st.first_ball_dot,
    fss := s.st.first_scoring_shot }

def fbStep (v : FBView) (d : Delivery) : FBView :=
  if !v.fbp && isLegalDelivery d then
    { fbp := true, dot := d.runs.total == 0,
      fss := if 0 < d.runs.batter then some (categorize_runs d.runs.batter) else v.fss }
  else v

lemma fb_core (s : InnState) (d : Delivery) :
    fbView (pd_first_ball (isLegalDelivery d) d.runs.batter d.runs.total s)
      = fbStep (fbView s) d := by
  unfold pd_first_ball fbStep fbView
  split_ifs <;> rfl

lemma fb_accumulate (t : Int) (os : OverState) :
    fbView (pd_accumulate t os).inn = fbView os.inn := rfl

lemma fb_batsman (b : Option String) (r : Int) (s : InnState) :
    fbView (pd_batsman b r s) = fbView s := rfl

lemma fb_partnership (r : Int) (s : InnState) :
    fbView (pd_partnership r s) = fbView s := by
  unfold pd_partnership fbView
  split <;> rfl

lemma fb_boundaries (r : Int) (os : OverState) :
    fbView (pd_boundaries r os).inn = fbView os.inn := by
  unfold pd_boundaries fbView
  repeat' split
  all_goals rfl

lemma fb_wickets (w : List WicketInfo) (s : InnState) :
    fbView (pd_wickets w s) = fbView s := by
  unfold pd_wickets fbView
  rcases w with _ | ⟨w, ws⟩
  · rfl
  · dsimp only
    split <;> rfl

lemma fb_phase (i o : ℕ) (t : Int) (s : InnState) :
    fbView (pd_phase i o t s) = fbView s := by
  unfold pd_phase fbView
  repeat' split
  all_goals rfl

lemma fbView_process_delivery (i o : ℕ) (os : OverState) (d : Delivery) :
    fbView ((process_delivery_step i o os d).inn) = fbStep (fbView os.inn) d := by
  unfold process_delivery_step process_delivery
  dsimp only
  rw [fb_phase, fb_wickets, fb_boundaries]
  dsimp only
  rw [fb_partnership, fb_batsman, fb_accumulate]
  dsimp only
  rw [fb_core]

lemma fbView_over_post (os : OverState) :
    fbView (over_post os) = fbView os.inn := by
  unfold over_post fbView
  dsimp only
  repeat' split
  all_goals rfl

lemma fbView_apply_milestones (s : InnState) :
    fbView (apply_milestones s) = fbView s := by
  unfold apply_milestones fbView
  dsimp only
  repeat' split
  all_goals rfl

/-- The category of the very first scoring shot, as recorded by the code:
it is set only when the first legal delivery of the match scores. -/
def firstScoringShotSpec (ds : List Delivery) : Option String :=
  match ds.filter (fun d => isLegalDelivery d) with
  | [] => none
  | d :: _ =>
    if 0 < d.runs.batter then some (categorize_runs d.runs.batter) else none

lemma foldl_fbStep_frozen (ds : List Delivery) (v : FBView) (h : v.fbp = true) :
    ds.foldl fbStep v = v := by
  induction ds with
  | nil => rfl
  | cons d ds ih =>
    rw [List.foldl_cons]
    have : fbStep v d = v := by
      unfold fbStep
      rw [h]
      rfl
    rw [this, ih]

lemma foldl_fbStep_char (ds : List Delivery) (dot0 : Bool) :
    (ds.foldl fbStep { fbp := false, dot := dot0, fss := none }).fss
      = firstScoringShotSpec ds := by
  induction ds generalizing dot0 with
  | nil => rfl
  | cons d ds ih =>
    rw [List.foldl_cons]
    by_cases hleg : isLegalDelivery d
    · have hstep : fbStep { fbp := false, dot := dot0, fss := none } d
          = { fbp := true, dot := d.runs.total == 0,
              fss := if 0 < d.runs.batter then some (categorize_runs d.runs.batter)
                     else none } := by
        unfold fbStep
        simp [hleg]
      rw [hstep, foldl_fbStep_frozen _ _ rfl]
      simp [firstScoringShotSpec, List.filter_cons, hleg]
    · have hstep : fbStep { fbp := false, dot := dot0, fss := none } d
          = { fbp := false, dot := dot0, fss := none } := by
        unfold fbStep
        simp [hleg]
      rw [hstep, ih]
      simp [firstScoringShotSpec, List.filter_cons, hleg]

def mfbView (acc : BMStats × Bool) : FBView :=
  { fbp := acc.2, dot := acc.1.first_ball_dot, fss := acc.1.first_scoring_shot }

lemma process_inning_fb (acc : BMStats × Bool) (p : ℕ × InningRec) :
    mfbView (process_inning acc p) = (inningDeliveries p.2).foldl fbStep (mfbView acc) := by
  have h0 : mfbView (process_inning acc p)
      = fbView (apply_milestones (innFold p.1 p.2 (innInit acc.1 acc.2 p.2))) := rfl
  rw [h0, fbView_apply_milestones]
  unfold innFold
  rw [proj_innings_overs fbView fbStep fbView_process_delivery fbView_over_post]
  rfl

lemma calculate_match_stats_fss (md : MatchData) :
    (calculate_match_stats md).first_scoring_shot
      = firstScoringShotSpec (matchDeliveries md) := by
  have main : ∀ (l : List (ℕ × InningRec)) (acc : BMStats × Bool),
      mfbView (l.foldl (fun acc q => process_inning acc q) acc)
        = (((l.map (fun q => inningDeliveries q.2)).flatten)).foldl fbStep (mfbView acc) := by
    intro l
    induction l with
    | nil => intro acc; rfl
    | cons q l ih =>
      intro acc
      rw [List.foldl_cons, ih, process_inning_fb, List.map_cons, List.flatten_cons,
        List.foldl_append]
  have h := main (md.innings.enum) (initBMStats, false)
  have he : (md.innings.enum.map (fun q => inningDeliveries q.2))
      = md.innings.map inningDeliveries := by
    have hc : (fun q : ℕ × InningRec => inningDeliveries q.2)
        = inningDeliveries ∘ Prod.snd := rfl
    rw [hc, ← List.map_map, List.enum_map_snd]
  rw [he] at h
  calc (calculate_match_stats md).first_scoring_shot
      = (mfbView (md.innings.enum.foldl (fun acc q => process_inning acc q)
          (initBMStats, false))).fss := rfl
    _ = ((md.innings.map inningDeliveries).flatten.foldl fbStep
          (mfbView (initBMStats, false))).fss := by rw [h]
    _ = firstScoringShotSpec (matchDeliveries md) := by
        rw [show mfbView (initBMStats, false)
            = { fbp := false, dot := false, fss := none } from rfl,
          foldl_fbStep_char]
        rfl

/-! ## The betting-markets accumulator (src/betting_markets.py lines 20-129,
291-441).  Numeric markets are the sample lists; categorical markets are the
bucket counters.  The vestigial `'over': 0, 'under': 0` scaffolding keys,
which no code path ever updates, are omitted; `most_runs_out`, initialized
but never updated, is kept as constant counters. -/

structure Markets where
  match_winner_team_1 : Nat
  match_winner_team_2 : Nat
  match_winner_tie : Nat
  match_winner_no_result : Nat
  toss_winner_team_1 : Nat
  toss_winner_team_2 : Nat
  total_runs : List Int
  match_fours : List Nat
  match_sixes : List Nat
  match_boundaries : List Nat
  home_total_fours : List Nat
  away_total_fours : List Nat
  home_total_sixes : List Nat
  away_total_sixes : List Nat
  home_total_boundaries : List Nat
  away_total_boundaries : List Nat
  highest_individual_score : List Int
  home_highest_individual : List Int
  away_highest_individual : List Int
  most_runs_single_over : List Int
  home_most_runs_single_over : List Int
  away_most_runs_single_over : List Int
  home_wickets_caught : List Nat
  away_wickets_caught : List Nat
  runs_first_6_overs : List Int
  runs_first_10_overs : List Int
  runs_first_15_overs : List Int
  fw_caught : Nat
  fw_bowled : Nat
  fw_lbw : Nat
  fw_run_out : Nat
  fw_stumped : Nat
  fw_others : Nat
  fifty_yes : Nat
  fifty_no : Nat
  hundred_yes : Nat
  hundred_no : Nat
  home_fifty_yes : Nat
  home_fifty_no : Nat
  away_fifty_yes : Nat
  away_fifty_no : Nat
  home_hundred_yes : Nat
  home_hundred_no : Nat
  away_hundred_yes : Nat
  away_hundred_no : Nat
  first_ball_dot_yes : Nat
  first_ball_dot_no : Nat
  six_boundaries_in_over_yes : Nat
  six_boundaries_in_over_no : Nat
  fss_single : Nat
  fss_two : Nat
  fss_three : Nat
  fss_four : Nat
  fss_six : Nat
  fss_others : Nat
  runs_at_fall_first_wicket : List Int
  total_runs_out : List Int
  most_sixes_team_1 : Nat
  most_sixes_team_2 : Nat
  most_sixes_tie : Nat
  most_fours_team_1 : Nat
  most_fours_team_2 : Nat
  most_fours_tie : Nat
  hop_partnerships : List Int
  hop_home_wins : Nat
  hop_away_wins : Nat
  hop_ties : Nat
  most_runs_out_team_1 : Nat
  most_runs_out_team_2 : Nat
  most_runs_out_tie : Nat
  deriving DecidableEq

def initMarkets : Markets :=
  { match_winner_team_1 := 0, match_winner_team_2 := 0, match_winner_tie := 0,
    match_winner_no_result := 0, toss_winner_team_1 := 0, toss_winner_team_2 := 0,
    total_runs := [], match_fours := [], match_sixes := [], match_boundaries := [],
    home_total_fours := [], away_total_fours := [], home_total_sixes := [],
    away_total_sixes := [], home_total_boundaries := [], away_total_boundaries := [],
    highest_individual_score := [], home_highest_individual := [],
    away_highest_individual := [], most_runs_single_over := [],
    home_most_runs_single_over := [], away_most_runs_single_over := [],
    home_wickets_caught := [], away_wickets_caught := [],
    runs_first_6_overs := [], runs_first_10_overs := [], runs_first_15_overs := [],
    fw_caught := 0, fw_bowled := 0, fw_lbw := 0, fw_run_out := 0, fw_stumped := 0,
    fw_others := 0, fifty_yes := 0, fifty_no := 0, hundred_yes := 0, hundred_no := 0,
    home_fifty_yes := 0, home_fifty_no := 0, away_fifty_yes := 0, away_fifty_no := 0,
    home_hundred_yes := 0, home_hundred_no := 0, away_hundred_yes := 0,
    away_hundred_no := 0, first_ball_dot_yes := 0, first_ball_dot_no := 0,
    six_boundaries_in_over_yes := 0, six_boundaries_in_over_no := 0,
    fss_single := 0, fss_two := 0, fss_three := 0, fss_four := 0, fss_six := 0,
    fss_others := 0, runs_at_fall_first_wicket := [], total_runs_out := [],
    most_sixes_team_1 := 0, most_sixes_team_2 := 0, most_sixes_tie := 0,
    most_fours_team_1 := 0, most_fours_team_2 := 0, most_fours_tie := 0,
    hop_partnerships := [], hop_home_wins := 0, hop_away_wins := 0, hop_ties := 0,
    most_runs_out_team_1 := 0, most_runs_out_team_2 := 0, most_runs_out_tie := 0 }

/-- `markets['first_wicket_method'][method] += 1` (line 351); the key is
always one of the categorizer's six outputs. -/
def bump_first_wicket_method (mk : Markets) (m : String) : Markets :=
  if m = "caught" then { mk with fw_caught := mk.fw_caught + 1 }
  else if m = "bowled" then { mk with fw_bowled := mk.fw_bowled + 1 }
  else if m = "lbw" then { mk with fw_lbw := mk.fw_lbw + 1 }
  else if m = "run_out" then { mk with fw_run_out := mk.fw_run_out + 1 }
  else if m = "stumped" then { mk with fw_stumped := mk.fw_stumped + 1 }
  else { mk with fw_others := mk.fw_others + 1 }

/-- `markets['first_scoring_shot'][shot] += 1` (line 366); the key is always
one of `_categorize_runs`' six outputs. -/
def bump_first_scoring_shot (mk : Markets) (c : String) : Markets :=
  if c = "single" then { mk with fss_single := mk.fss_single + 1 }
  else if c = "two" then { mk with fss_two := mk.fss_two + 1 }
  else if c = "three" then { mk with fss_three := mk.fss_three + 1 }
  else if c = "four" then { mk with fss_four := mk.fss_four + 1 }
  else if c = "six" then { mk with fss_six := mk.fss_six + 1 }
  else { mk with fss_others := mk.fss_others + 1 }

/-- The opening-partnership outcome block (lines 320-347).  `match_data` is
always a nonempty dict at the call site, so its truthiness test reduces to
the `len(teams) >= 2` test, folded into the pattern match. -/
def hop_outcome_update (mk : Markets) (teams : List String) (md : MatchData) :
    Markets :=
  match teams with
  | team_1 :: _ :: _ =>
    let winner := md.info.outcomeWinner
    let fit := match md.innings with
      | [] => none
      | inn :: _ => inn.team
    match fit with
    | none => mk
    | some t =>
      if t = "" then mk   -- Python string truthiness
      else if winner = some t then
        (if t = team_1 then { mk with hop_home_wins := mk.hop_home_wins + 1 }
         else { mk with hop_away_wins := mk.hop_away_wins + 1 })
      else if (match winner with
               | some w => decide (w ≠ "") && decide (w ≠ "No Result")
               | none => false) then
        (if t = team_1 then { mk with hop_away_wins := mk.hop_away_wins + 1 }
         else { mk with hop_home_wins := mk.hop_home_wins + 1 })
      else { mk with hop_ties := mk.hop_ties + 1 }
  | _ => mk

/-- Unconditional numeric appends of `_update_markets_with_match_stats`
(lines 294-311). -/
def umws_numeric (mk : Markets) (ms : BMStats) : Markets :=
  { mk with
    total_runs := mk.total_runs ++ [ms.total_runs]
    match_fours := mk.match_fours ++ [ms.total_fours]
    match_sixes := mk.match_sixes ++ [ms.total_sixes]
    match_boundaries := mk.match_boundaries ++ [ms.total_boundaries]
    highest_individual_score :=
      mk.highest_individual_score ++ [ms.highest_individual_score]
    most_runs_single_over := mk.most_runs_single_over ++ [ms.most_runs_single_over]
    runs_first_6_overs := mk.runs_first_6_overs ++ [ms.runs_first_6]
    runs_first_10_overs := mk.runs_first_10_overs ++ [ms.runs_first_10]
    runs_first_15_overs := mk.runs_first_15_overs ++ [ms.runs_first_15] }

/-- Conditional first-wicket append, total-runs-out append, and the opening
partnership block (lines 313-347). -/
def umws_partnership (mk : Markets) (ms : BMStats) (teams : List String)
    (md : MatchData) : Markets :=
  let mk := if 0 < ms.first_wicket_runs then
      { mk with runs_at_fall_first_wicket :=
          mk.runs_at_fall_first_wicket ++ [ms.first_wicket_runs] }
    else mk
  let mk := { mk with total_runs_out := mk.total_runs_out ++ [ms.total_runs_out] }
  if !ms.opening_partnerships.isEmpty then
    hop_outcome_update
      { mk with hop_partnerships := mk.hop_partnerships ++ ms.opening_partnerships }
      teams md
  else mk

/-- First-wicket-method tally (lines 349-351). -/
def umws_fwm (mk : Markets) (ms : BMStats) : Markets :=
  match ms.first_wicket_method with
  | some m => bump_first_wicket_method mk m
  | none => mk

/-- First-ball-dot tally (lines 353-357). -/
def umws_fbd (mk : Markets) (ms : BMStats) : Markets :=
  if ms.first_ball_dot then
    { mk with first_ball_dot_yes := mk.first_ball_dot_yes + 1 }
  else { mk with first_ball_dot_no := mk.first_ball_dot_no + 1 }

/-- Six-boundaries-in-over tally (lines 359-362). -/
def umws_sbo (mk : Markets) (ms : BMStats) : Markets :=
  if ms.six_boundaries_in_over then
    { mk with six_boundaries_in_over_yes := mk.six_boundaries_in_over_yes + 1 }
  else { mk with six_boundaries_in_over_no := mk.six_boundaries_in_over_no + 1 }

/-- First-scoring-shot tally (lines 364-366). -/
def umws_fss (mk : Markets) (ms : BMStats) : Markets :=
  match ms.first_scoring_shot with
  | some c => bump_first_scoring_shot mk c
  | none => mk

/-- Fifty-scored tally (lines 369-372). -/
def umws_fifty (mk : Markets) (ms : BMStats) : Markets :=
  if ms.fifty then { mk with fifty_yes := mk.fifty_yes + 1 }
  else { mk with fifty_no := mk.fifty_no + 1 }

/-- Hundred-scored tally (lines 374-377). -/
def umws_hundred (mk : Markets) (ms : BMStats) : Markets :=
  if ms.hundred then { mk with hundred_yes := mk.hundred_yes + 1 }
  else { mk with hundred_no := mk.hundred_no + 1 }

/-- Categorical updates of `_update_markets_with_match_stats`
(lines 349-377). -/
def umws_flags (mk : Markets) (ms : BMStats) : Markets :=
  umws_hundred (umws_fifty (umws_fss (umws_sbo (umws_fbd (umws_fwm mk ms) ms) ms) ms) ms) ms

/-- The home-team block of the team-specific markets (lines 388-404). -/
def umws_home (mk : Markets) (ts1 : Option TeamBMStats) : Markets :=
  match ts1 with
  | none => mk
  | some s1 =>
    let mk := { mk with
      home_total_fours := mk.home_total_fours ++ [s1.fours]
      home_total_sixes := mk.home_total_sixes ++ [s1.sixes]
      home_total_boundaries := mk.home_total_boundaries ++ [s1.boundaries]
      home_highest_individual := mk.home_highest_individual ++ [s1.highest_individual]
      home_most_runs_single_over :=
        mk.home_most_runs_single_over ++ [s1.most_runs_single_over]
      home_wickets_caught := mk.home_wickets_caught ++ [s1.wickets_caught] }
    let mk := if s1.fifty then { mk with home_fifty_yes := mk.home_fifty_yes + 1 }
      else { mk with home_fifty_no := mk.home_fifty_no + 1 }
    if s1.hundred then { mk with home_hundred_yes := mk.home_hundred_yes + 1 }
    else { mk with home_hundred_no := mk.home_hundred_no + 1 }

/-- The away-team block of the team-specific markets (lines 406-422). -/
def umws_away (mk : Markets) (ts2 : Option TeamBMStats) : Markets :=
  match ts2 with
  | none => mk
  | some s2 =>
    let mk := { mk with
      away_total_fours := mk.away_total_fours ++ [s2.fours]
      away_total_sixes := mk.away_total_sixes ++ [s2.sixes]
      away_total_boundaries := mk.away_total_boundaries ++ [s2.boundaries]
      away_highest_individual := mk.away_highest_individual ++ [s2.highest_individual]
      away_most_runs_single_over :=
        mk.away_most_runs_single_over ++ [s2.most_runs_single_over]
      away_wickets_caught := mk.away_wickets_caught ++ [s2.wickets_caught] }
    let mk := if s2.fifty then { mk with away_fifty_yes := mk.away_fifty_yes + 1 }
      else { mk with away_fifty_no := mk.away_fifty_no + 1 }
    if s2.hundred then { mk with away_hundred_yes := mk.away_hundred_yes + 1 }
    else { mk with away_hundred_no := mk.away_hundred_no + 1 }

/-- The comparative markets (lines 424-441). -/
def umws_comparative (mk : Markets) (ts1 ts2 : Option TeamBMStats) : Markets :=
  let t1sixes : Nat := ((ts1.map (fun s => s.sixes)).getD 0)
  let t2sixes : Nat := ((ts2.map (fun s => s.sixes)).getD 0)
  let mk := if t2sixes < t1sixes then
      { mk with most_sixes_team_1 := mk.most_sixes_team_1 + 1 }
    else if t1sixes < t2sixes then
      { mk with most_sixes_team_2 := mk.most_sixes_team_2 + 1 }
    else { mk with most_sixes_tie := mk.most_sixes_tie + 1 }
  let t1fours : Nat := ((ts1.map (fun s => s.fours)).getD 0)
  let t2fours : Nat := ((ts2.map (fun s => s.fours)).getD 0)
  if t2fours < t1fours then
    { mk with most_fours_team_1 := mk.most_fours_team_1 + 1 }
  else if t1fours < t2fours then
    { mk with most_fours_team_2 := mk.most_fours_team_2 + 1 }
  else { mk with most_fours_tie := mk.most_fours_tie + 1 }

/-- `_update_markets_with_match_stats` (src/betting_markets.py lines
291-441). -/
def update_markets_with_match_stats (mk : Markets) (ms : BMStats)
    (teams : List String) (md : MatchData) : Markets :=
  let mk := umws_numeric mk ms
  let mk := umws_partnership mk ms teams md
  let mk := umws_flags mk ms
  match teams with
  | team_1 :: team_2 :: _ =>
    let ts1 := ms.team_stats.lookup team_1
    let ts2 := ms.team_stats.lookup team_2
    umws_comparative (umws_away (umws_home mk ts1) ts2) ts1 ts2
  | _ => mk

/-- The match-winner tally of `_process_match_for_betting_markets`
(lines 107-116): `None` goes to `no_result`, a winner equal to neither
listed team goes to `tie`. -/
def pm_match_winner (mk : Markets) (winner : Option String)
    (team_1 team_2 : String) : Markets :=
  match winner with
  | some w =>
    if w = team_1 then { mk with match_winner_team_1 := mk.match_winner_team_1 + 1 }
    else if w = team_2 then { mk with match_winner_team_2 := mk.match_winner_team_2 + 1 }
    else { mk with match_winner_tie := mk.match_winner_tie + 1 }
  | none => { mk with match_winner_no_result := mk.match_winner_no_result + 1 }

/-- The toss-winner tally (lines 119-123). -/
def pm_toss_winner (mk : Markets) (toss_winner : Option String)
    (team_1 team_2 : String) : Markets :=
  match toss_winner with
  | some w =>
    if w = team_1 then { mk with toss_winner_team_1 := mk.toss_winner_team_1 + 1 }
    else if w = team_2 then { mk with toss_winner_team_2 := mk.toss_winner_team_2 + 1 }
    else mk
  | none => mk

/-- `_process_match_for_betting_markets` (src/betting_markets.py lines
97-129). -/
def process_match_for_betting_markets (md : MatchData) (mk : Markets) : Markets :=
  match md.info.teams with
  | team_1 :: team_2 :: _ =>
    let mk := pm_match_winner mk md.info.outcomeWinner team_1 team_2
    let mk := pm_toss_winner mk md.info.tossWinner team_1 team_2
    let ms := calculate_match_stats md
    update_markets_with_match_stats mk ms md.info.teams md
  | _ => mk

/-- `calculate_betting_markets` (lines 10-95); the final
`_calculate_market_summaries` pass only adds summary keys (modelled by
`lineAnalysis` above) and leaves every sample and tally unchanged. -/
def calculate_betting_markets (data_list : List MatchData) : Markets :=
  data_list.foldl (fun mk md => process_match_for_betting_markets md mk) initMarkets

/-! ## Views of the market record, used to state which buckets an update
touches -/

/-- The four match-winner buckets. -/
def mwView (mk : Markets) : Nat × Nat × Nat × Nat :=
  (mk.match_winner_team_1, mk.match_winner_team_2,
   mk.match_winner_tie, mk.match_winner_no_result)

def mwTotal (mk : Markets) : Nat :=
  mk.match_winner_team_1 + mk.match_winner_team_2
    + mk.match_winner_tie + mk.match_winner_no_result

/-- The numeric market samples relevant to claim C6. -/
structure NumView where
  total_runs : List Int
  match_fours : List Nat
  match_sixes : List Nat
  match_boundaries : List Nat
  highest_individual_score : List Int
  most_runs_single_over : List Int
  runs_first_6_overs : List Int
  runs_first_10_overs : List Int
  runs_first_15_overs : List Int
  runs_at_fall_first_wicket : List Int
  total_runs_out : List Int
  hop_partnerships : List Int
  deriving DecidableEq

def numView (mk : Markets) : NumView :=
  { total_runs := mk.total_runs, match_fours := mk.match_fours,
    match_sixes := mk.match_sixes, match_boundaries := mk.match_boundaries,
    highest_individual_score := mk.highest_individual_score,
    most_runs_single_over := mk.most_runs_single_over,
    runs_first_6_overs := mk.runs_first_6_overs,
    runs_first_10_overs := mk.runs_first_10_overs,
    runs_first_15_overs := mk.runs_first_15_overs,
    runs_at_fall_first_wicket := mk.runs_at_fall_first_wicket,
    total_runs_out := mk.total_runs_out, hop_partnerships := mk.hop_partnerships }

/-- The six first-scoring-shot buckets. -/
def fssView (mk : Markets) : Nat × Nat × Nat × Nat × Nat × Nat :=
  (mk.fss_single, mk.fss_two, mk.fss_three, mk.fss_four, mk.fss_six, mk.fss_others)

def fssTotal (mk : Markets) : Nat :=
  mk.fss_single + mk.fss_two + mk.fss_three + mk.fss_four + mk.fss_six + mk.fss_others

/-- Which first-scoring-shot bucket a category name belongs to. -/
def fssCount (mk : Markets) (c : String) : Nat :=
  if c = "single" then mk.fss_single
  else if c = "two" then mk.fss_two
  else if c = "three" then mk.fss_three
  else if c = "four" then mk.fss_four
  else if c = "six" then mk.fss_six
  else mk.fss_others

lemma mwView_hop_outcome (mk : Markets) (teams : List String) (md : MatchData) :
    mwView (hop_outcome_update mk teams md) = mwView mk := by
  unfold hop_outcome_update
  dsimp only
  repeat' split
  all_goals rfl

lemma mwView_umws_numeric (mk : Markets) (ms : BMStats) :
    mwView (umws_numeric mk ms) = mwView mk := rfl

lemma mwView_umws_partnership (mk : Markets) (ms : BMStats) (teams : List String)
    (md : MatchData) : mwView (umws_partnership mk ms teams md) = mwView mk := by
  unfold umws_partnership
  dsimp only
  repeat' split
  all_goals first
  | rfl
  | (rw [mwView_hop_outcome]; rfl)

lemma mwView_umws_fwm (mk : Markets) (ms : BMStats) :
    mwView (umws_fwm mk ms) = mwView mk := by
  unfold umws_fwm bump_first_wicket_method
  repeat' split
  all_goals rfl

lemma mwView_umws_fbd (mk : Markets) (ms : BMStats) :
    mwView (umws_fbd mk ms) = mwView mk := by
  unfold umws_fbd
  split
  all_goals rfl

lemma mwView_umws_sbo (mk : Markets) (ms : BMStats) :
    mwView (umws_sbo mk ms) = mwView mk := by
  unfold umws_sbo
  split
  all_goals rfl

lemma mwView_umws_fss (mk : Markets) (ms : BMStats) :
    mwView (umws_fss mk ms) = mwView mk := by
  unfold umws_fss bump_first_scoring_shot
  repeat' split
  all_goals rfl

lemma mwView_umws_fifty (mk : Markets) (ms : BMStats) :
    mwView (umws_fifty mk ms) = mwView mk := by
  unfold umws_fifty
  split
  all_goals rfl

lemma mwView_umws_hundred (mk : Markets) (ms : BMStats) :
    mwView (umws_hundred mk ms) = mwView mk := by
  unfold umws_hundred
  split
  all_goals rfl

lemma mwView_umws_flags (mk : Markets) (ms : BMStats) :
    mwView (umws_flags mk ms) = mwView mk := by
  unfold umws_flags
  rw [mwView_umws_hundred, mwView_umws_fifty, mwView_umws_fss, mwView_umws_sbo,
    mwView_umws_fbd, mwView_umws_fwm]

lemma mwView_umws_home (mk : Markets) (t : Option TeamBMStats) :
    mwView (umws_home mk t) = mwView mk := by
  unfold umws_home
  dsimp only
  repeat' split
  all_goals rfl

lemma mwView_umws_away (mk : Markets) (t : Option TeamBMStats) :
    mwView (umws_away mk t) = mwView mk := by
  unfold umws_away
  dsimp only
  repeat' split
  all_goals rfl

lemma mwView_umws_comparative (mk : Markets) (t1 t2 : Option TeamBMStats) :
    mwView (umws_comparative mk t1 t2) = mwView mk := by
  unfold umws_comparative
  dsimp only
  repeat' split
  all_goals rfl

lemma mwView_update_markets (mk : Markets) (ms : BMStats) (teams : List String)
    (md : MatchData) :
    mwView (update_markets_with_match_stats mk ms teams md) = mwView mk := by
  unfold update_markets_with_match_stats
  dsimp only
  split
  · rw [mwView_umws_comparative, mwView_umws_away, mwView_umws_home,
      mwView_umws_flags, mwView_umws_partnership, mwView_umws_numeric]
  · rw [mwView_umws_flags, mwView_umws_partnership, mwView_umws_numeric]

lemma mwView_pm_toss (mk : Markets) (tw : Option String) (t1 t2 : String) :
    mwView (pm_toss_winner mk tw t1 t2) = mwView mk := by
  unfold pm_toss_winner
  repeat' split
  all_goals rfl

lemma process_match_eq (md : MatchData) (mk : Markets) (t1 t2 : String)
    (rest : List String) (h : md.info.teams = t1 :: t2 :: rest) :
    process_match_for_betting_markets md mk
      = update_markets_with_match_stats
          (pm_toss_winner (pm_match_winner mk md.info.outcomeWinner t1 t2)
            md.info.tossWinner t1 t2)
          (calculate_match_stats md) md.info.teams md := by
  unfold process_match_for_betting_markets
  rw [h]

/-- C10: in the `match_winner` market, a present winner equal to neither
listed team is tallied in the `tie` bucket, an absent winner in the
`no_result` bucket, the listed teams in their own buckets, and exactly one
bucket is incremented per processed match (one with at least two teams). -/
theorem c10_match_winner_buckets (md : MatchData) (mk : Markets)
    (t1 t2 : String) (rest : List String) (h : md.info.teams = t1 :: t2 :: rest) :
    mwView (process_match_for_betting_markets md mk)
      = (match md.info.outcomeWinner with
         | none => (mk.match_winner_team_1, mk.match_winner_team_2,
                    mk.match_winner_tie, mk.match_winner_no_result + 1)
         | some w =>
           if w = t1 then
             (mk.match_winner_team_1 + 1, mk.match_winner_team_2,
              mk.match_winner_tie, mk.match_winner_no_result)
           else if w = t2 then
             (mk.match_winner_team_1, mk.match_winner_team_2 + 1,
              mk.match_winner_tie, mk.match_winner_no_result)
           else
             (mk.match_winner_team_1, mk.match_winner_team_2,
              mk.match_winner_tie + 1, mk.match_winner_no_result))
    ∧ mwTotal (process_match_for_betting_markets md mk) = mwTotal mk + 1 := by
  have hview : mwView (process_match_for_betting_markets md mk)
      = mwView (pm_match_winner mk md.info.outcomeWinner t1 t2) := by
    rw [process_match_eq md mk t1 t2 rest h, mwView_update_markets, mwView_pm_toss]
  have hq : mwView (pm_match_winner mk md.info.outcomeWinner t1 t2)
      = (match md.info.outcomeWinner with
         | none => (mk.match_winner_team_1, mk.match_winner_team_2,
                    mk.match_winner_tie, mk.match_winner_no_result + 1)
         | some w =>
           if w = t1 then
             (mk.match_winner_team_1 + 1, mk.match_winner_team_2,
              mk.match_winner_tie, mk.match_winner_no_result)
           else if w = t2 then
             (mk.match_winner_team_1, mk.match_winner_team_2 + 1,
              mk.match_winner_tie, mk.match_winner_no_result)
           else
             (mk.match_winner_team_1, mk.match_winner_team_2,
              mk.match_winner_tie + 1, mk.match_winner_no_result)) := by
    unfold pm_match_winner mwView
    rcases md.info.outcomeWinner with _ | w
    · rfl
    · dsimp only
      split_ifs <;> rfl
  refine ⟨hview.trans hq, ?_⟩
  have htot : mwTotal (process_match_for_betting_markets md mk)
      = (mwView (process_match_for_betting_markets md mk)).1
        + (mwView (process_match_for_betting_markets md mk)).2.1
        + (mwView (process_match_for_betting_markets md mk)).2.2.1
        + (mwView (process_match_for_betting_markets md mk)).2.2.2 := rfl
  rw [htot, hview.trans hq]
  rcases md.info.outcomeWinner with _ | w
  · dsimp only [mwTotal]
    omega
  · dsimp only
    split_ifs <;> dsimp only [mwTotal] <;> omega

/-! ### numView preservation and the C6 update shape -/

lemma numView_hop_outcome (mk : Markets) (teams : List String) (md : MatchData) :
    numView (hop_outcome_update mk teams md) = numView mk := by
  unfold hop_outcome_update
  dsimp only
  repeat' split
  all_goals rfl

lemma numView_umws_fwm (mk : Markets) (ms : BMStats) :
    numView (umws_fwm mk ms) = numView mk := by
  unfold umws_fwm bump_first_wicket_method
  repeat' split
  all_goals rfl

lemma numView_umws_fbd (mk : Markets) (ms : BMStats) :
    numView (umws_fbd mk ms) = numView mk := by
  unfold umws_fbd
  split
  all_goals rfl

lemma numView_umws_sbo (mk : Markets) (ms : BMStats) :
    numView (umws_sbo mk ms) = numView mk := by
  unfold umws_sbo
  split
  all_goals rfl

lemma numView_umws_fss (mk : Markets) (ms : BMStats) :
    numView (umws_fss mk ms) = numView mk := by
  unfold umws_fss bump_first_scoring_shot
  repeat' split
  all_goals rfl

lemma numView_umws_fifty (mk : Markets) (ms : BMStats) :
    numView (umws_fifty mk ms) = numView mk := by
  unfold umws_fifty
  split
  all_goals rfl

lemma numView_umws_hundred (mk : Markets) (ms : BMStats) :
    numView (umws_hundred mk ms) = numView mk := by
  unfold umws_hundred
  split
  all_goals rfl

lemma numView_umws_flags (mk : Markets) (ms : BMStats) :
    numView (umws_flags mk ms) = numView mk := by
  unfold umws_flags
  rw [numView_umws_hundred, numView_umws_fifty, numView_umws_fss, numView_umws_sbo,
    numView_umws_fbd, numView_umws_fwm]

lemma numView_umws_home (mk : Markets) (t : Option TeamBMStats) :
    numView (umws_home mk t) = numView mk := by
  unfold umws_home
  dsimp only
  repeat' split
  all_goals rfl

lemma numView_umws_away (mk : Markets) (t : Option TeamBMStats) :
    numView (umws_away mk t) = numView mk := by
  unfold umws_away
  dsimp only
  repeat' split
  all_goals rfl

lemma numView_umws_comparative (mk : Markets) (t1 t2 : Option TeamBMStats) :
    numView (umws_comparative mk t1 t2) = numView mk := by
  unfold umws_comparative
  dsimp only
  repeat' split
  all_goals rfl

lemma numView_pm_mw (mk : Markets) (w : Option String) (t1 t2 : String) :
    numView (pm_match_winner mk w t1 t2) = numView mk := by
  unfold pm_match_winner
  repeat' split
  all_goals rfl

lemma numView_pm_toss (mk : Markets) (w : Option String) (t1 t2 : String) :
    numView (pm_toss_winner mk w t1 t2) = numView mk := by
  unfold pm_toss_winner
  repeat' split
  all_goals rfl

lemma numView_umws_numeric_char (mk : Markets) (ms : BMStats) :
    numView (umws_numeric mk ms)
      = { total_runs := (numView mk).total_runs ++ [ms.total_runs]
          match_fours := (numView mk).match_fours ++ [ms.total_fours]
          match_sixes := (numView mk).match_sixes ++ [ms.total_sixes]
          match_boundaries := (numView mk).match_boundaries ++ [ms.total_boundaries]
          highest_individual_score :=
            (numView mk).highest_individual_score ++ [ms.highest_individual_score]
          most_runs_single_over :=
            (numView mk).most_runs_single_over ++ [ms.most_runs_single_over]
          runs_first_6_overs := (numView mk).runs_first_6_overs ++ [ms.runs_first_6]
          runs_first_10_overs := (numView mk).runs_first_10_overs ++ [ms.runs_first_10]
          runs_first_15_overs := (numView mk).runs_first_15_overs ++ [ms.runs_first_15]
          runs_at_fall_first_wicket := (numView mk).runs_at_fall_first_wicket
          total_runs_out := (numView mk).total_runs_out
          hop_partnerships := (numView mk).hop_partnerships } := rfl

lemma numView_umws_partnership (mk : Markets) (ms : BMStats) (teams : List String)
    (md : MatchData) :
    numView (umws_partnership mk ms teams md)
      = { numView mk with
          runs_at_fall_first_wicket := (numView mk).runs_at_fall_first_wicket
            ++ (if 0 < ms.first_wicket_runs then [ms.first_wicket_runs] else [])
          total_runs_out := (numView mk).total_runs_out ++ [ms.total_runs_out]
          hop_partnerships := (numView mk).hop_partnerships
            ++ ms.opening_partnerships } := by
  unfold umws_partnership
  dsimp only
  split
  · rw [numView_hop_outcome]
    split <;> simp [numView]
  · rename_i hne
    have hops : ms.opening_partnerships = [] := by
      simpa using hne
    split <;> simp [numView, hops]

lemma numView_update_markets (mk : Markets) (ms : BMStats) (teams : List String)
    (md : MatchData) :
    numView (update_markets_with_match_stats mk ms teams md)
      = numView (umws_partnership (umws_numeric mk ms) ms teams md) := by
  unfold update_markets_with_match_stats
  dsimp only
  split
  · rw [numView_umws_comparative, numView_umws_away, numView_umws_home,
      numView_umws_flags]
  · rw [numView_umws_flags]

/-- C6 (amended): for every processed match (at least two listed teams),
each unconditional numeric market gains exactly one entry — the total-runs
entry being the sum of `runs.total` over the match's deliveries — while
`runs_at_fall_first_wicket` gains an entry only when the recorded
first-wicket partnership is positive, and the opening-partnership sample
gains one entry per innings in which a wicket fell. -/
theorem c6_numeric_markets_one_entry (md : MatchData) (mk : Markets)
    (t1 t2 : String) (rest : List String) (h : md.info.teams = t1 :: t2 :: rest) :
    numView (process_match_for_betting_markets md mk)
      = { total_runs := mk.total_runs ++ [(calculate_match_stats md).total_runs]
          match_fours := mk.match_fours ++ [(calculate_match_stats md).total_fours]
          match_sixes := mk.match_sixes ++ [(calculate_match_stats md).total_sixes]
          match_boundaries :=
            mk.match_boundaries ++ [(calculate_match_stats md).total_boundaries]
          highest_individual_score := mk.highest_individual_score
            ++ [(calculate_match_stats md).highest_individual_score]
          most_runs_single_over := mk.most_runs_single_over
            ++ [(calculate_match_stats md).most_runs_single_over]
          runs_first_6_overs := mk.runs_first_6_overs
            ++ [(calculate_match_stats md).runs_first_6]
          runs_first_10_overs := mk.runs_first_10_overs
            ++ [(calculate_match_stats md).runs_first_10]
          runs_first_15_overs := mk.runs_first_15_overs
            ++ [(calculate_match_stats md).runs_first_15]
          runs_at_fall_first_wicket := mk.runs_at_fall_first_wicket
            ++ (if 0 < (calculate_match_stats md).first_wicket_runs
                then [(calculate_match_stats md).first_wicket_runs] else [])
          total_runs_out := mk.total_runs_out
            ++ [(calculate_match_stats md).total_runs_out]
          hop_partnerships := mk.hop_partnerships
            ++ (calculate_match_stats md).opening_partnerships }
    ∧ (calculate_match_stats md).total_runs
        = (((matchDeliveries md).map (fun d => d.runs.total)).sum)
    ∧ (calculate_match_stats md).opening_partnerships
        = md.innings.filterMap (fun inn => opSpecB 0 (inningDeliveries inn)) := by
  refine ⟨?_, calculate_match_stats_total_runs md, calculate_match_stats_partnerships md⟩
  rw [process_match_eq md mk t1 t2 rest h, numView_update_markets,
    numView_umws_partnership, numView_umws_numeric_char, numView_pm_toss,
    numView_pm_mw]
  rfl

/-! ### fssView preservation and the C7 update shape -/

lemma fssTotal_congr {a b : Markets} (h : fssView a = fssView b) :
    fssTotal a = fssTotal b := by
  unfold fssView at h
  simp only [Prod.mk.injEq] at h
  obtain ⟨h1, h2, h3, h4, h5, h6⟩ := h
  unfold fssTotal
  rw [h1, h2, h3, h4, h5, h6]

lemma fssCount_congr {a b : Markets} (h : fssView a = fssView b) (c : String) :
    fssCount a c = fssCount b c := by
  unfold fssView at h
  simp only [Prod.mk.injEq] at h
  obtain ⟨h1, h2, h3, h4, h5, h6⟩ := h
  unfold fssCount
  split_ifs <;> first | exact h1 | exact h2 | exact h3 | exact h4 | exact h5 | exact h6

lemma fssView_hop_outcome (mk : Markets) (teams : List String) (md : MatchData) :
    fssView (hop_outcome_update mk teams md) = fssView mk := by
  unfold hop_outcome_update
  dsimp only
  repeat' split
  all_goals rfl

lemma fssView_umws_numeric (mk : Markets) (ms : BMStats) :
    fssView (umws_numeric mk ms) = fssView mk := rfl

lemma fssView_umws_partnership (mk : Markets) (ms : BMStats) (teams : List String)
    (md : MatchData) : fssView (umws_partnership mk ms teams md) = fssView mk := by
  unfold umws_partnership
  dsimp only
  repeat' split
  all_goals first
  | rfl
  | (rw [fssView_hop_outcome]; rfl)

lemma fssView_umws_fwm (mk : Markets) (ms : BMStats) :
    fssView (umws_fwm mk ms) = fssView mk := by
  unfold umws_fwm bump_first_wicket_method
  repeat' split
  all_goals rfl

lemma fssView_umws_fbd (mk : Markets) (ms : BMStats) :
    fssView (umws_fbd mk ms) = fssView mk := by
  unfold umws_fbd
  split
  all_goals rfl

lemma fssView_umws_sbo (mk : Markets) (ms : BMStats) :
    fssView (umws_sbo mk ms) = fssView mk := by
  unfold umws_sbo
  split
  all_goals rfl

lemma fssView_umws_fifty (mk : Markets) (ms : BMStats) :
    fssView (umws_fifty mk ms) = fssView mk := by
  unfold umws_fifty
  split
  all_goals rfl

lemma fssView_umws_hundred (mk : Markets) (ms : BMStats) :
    fssView (umws_hundred mk ms) = fssView mk := by
  unfold umws_hundred
  split
  all_goals rfl

lemma fssView_umws_home (mk : Markets) (t : Option TeamBMStats) :
    fssView (umws_home mk t) = fssView mk := by
  unfold umws_home
  dsimp only
  repeat' split
  all_goals rfl

lemma fssView_umws_away (mk : Markets) (t : Option TeamBMStats) :
    fssView (umws_away mk t) = fssView mk := by
  unfold umws_away
  dsimp only
  repeat' split
  all_goals rfl

lemma fssView_umws_comparative (mk : Markets) (t1 t2 : Option TeamBMStats) :
    fssView (umws_comparative mk t1 t2) = fssView mk := by
  unfold umws_comparative
  dsimp only
  repeat' split
  all_goals rfl

lemma fssView_pm_mw (mk : Markets) (w : Option String) (t1 t2 : String) :
    fssView (pm_match_winner mk w t1 t2) = fssView mk := by
  unfold pm_match_winner
  repeat' split
  all_goals rfl

lemma fssView_pm_toss (mk : Markets) (w : Option String) (t1 t2 : String) :
    fssView (pm_toss_winner mk w t1 t2) = fssView mk := by
  unfold pm_toss_winner
  repeat' split
  all_goals rfl

lemma fssTotal_umws_fss (mk : Markets) (ms : BMStats) :
    fssTotal (umws_fss mk ms)
      = fssTotal mk
        + (match ms.first_scoring_shot with | some _ => 1 | none => 0) := by
  unfold umws_fss bump_first_scoring_shot
  rcases ms.first_scoring_shot with _ | c
  · simp
  · dsimp only
    split_ifs <;> (unfold fssTotal; dsimp only; omega)

def fssCategories : List String := ["single", "two", "three", "four", "six", "others"]

lemma categorize_runs_mem (r : Int) : categorize_runs r ∈ fssCategories := by
  unfold categorize_runs fssCategories
  split_ifs <;> simp

lemma fss_spec_mem (ds : List Delivery) (x : String)
    (h : firstScoringShotSpec ds = some x) : x ∈ fssCategories := by
  unfold firstScoringShotSpec at h
  rcases hf : ds.filter (fun d => isLegalDelivery d) with _ | ⟨d, rest⟩
  · rw [hf] at h
    cases h
  · rw [hf] at h
    dsimp only at h
    split_ifs at h
    injection h with h
    rw [← h]
    exact categorize_runs_mem _

lemma fssCount_umws_fss (mk : Markets) (ms : BMStats) (c : String)
    (hc : c ∈ fssCategories)
    (hcat : ∀ x, ms.first_scoring_shot = some x → x ∈ fssCategories) :
    fssCount (umws_fss mk ms) c
      = fssCount mk c + (if ms.first_scoring_shot = some c then 1 else 0) := by
  unfold umws_fss bump_first_scoring_shot
  rcases hms : ms.first_scoring_shot with _ | x
  · simp
  · have hx := hcat x hms
    unfold fssCategories at hx hc
    fin_cases hc <;> fin_cases hx <;> simp [fssCount]

lemma fssView_update_fss_arg (mk : Markets) (ms : BMStats) (teams : List String)
    (md : MatchData) :
    fssView (umws_sbo (umws_fbd (umws_fwm
        (umws_partnership (umws_numeric mk ms) ms teams md) ms) ms) ms)
      = fssView mk := by
  rw [fssView_umws_sbo, fssView_umws_fbd, fssView_umws_fwm,
    fssView_umws_partnership, fssView_umws_numeric]

lemma fssTotal_update_markets (mk : Markets) (ms : BMStats) (teams : List String)
    (md : MatchData) :
    fssTotal (update_markets_with_match_stats mk ms teams md)
      = fssTotal mk
        + (match ms.first_scoring_shot with | some _ => 1 | none => 0) := by
  unfold update_markets_with_match_stats umws_flags
  dsimp only
  have hmid : ∀ mk0 : Markets,
      fssTotal (umws_hundred (umws_fifty (umws_fss mk0 ms) ms) ms)
        = fssTotal mk0
          + (match ms.first_scoring_shot with | some _ => 1 | none => 0) := by
    intro mk0
    rw [fssTotal_congr (fssView_umws_hundred _ ms),
      fssTotal_congr (fssView_umws_fifty _ ms), fssTotal_umws_fss]
  split
  · rw [fssTotal_congr (fssView_umws_comparative _ _ _),
      fssTotal_congr (fssView_umws_away _ _),
      fssTotal_congr (fssView_umws_home _ _), hmid,
      fssTotal_congr (fssView_update_fss_arg mk ms _ md)]
  · rw [hmid, fssTotal_congr (fssView_update_fss_arg mk ms _ md)]

lemma fssCount_update_markets (mk : Markets) (ms : BMStats) (teams : List String)
    (md : MatchData) (c : String) (hc : c ∈ fssCategories)
    (hcat : ∀ x, ms.first_scoring_shot = some x → x ∈ fssCategories) :
    fssCount (update_markets_with_match_stats mk ms teams md) c
      = fssCount mk c + (if ms.first_scoring_shot = some c then 1 else 0) := by
  unfold update_markets_with_match_stats umws_flags
  dsimp only
  have hmid : ∀ mk0 : Markets,
      fssCount (umws_hundred (umws_fifty (umws_fss mk0 ms) ms) ms) c
        = fssCount mk0 c + (if ms.first_scoring_shot = some c then 1 else 0) := by
    intro mk0
    rw [fssCount_congr (fssView_umws_hundred _ ms),
      fssCount_congr (fssView_umws_fifty _ ms), fssCount_umws_fss mk0 ms c hc hcat]
  split
  · rw [fssCount_congr (fssView_umws_comparative _ _ _),
      fssCount_congr (fssView_umws_away _ _),
      fssCount_congr (fssView_umws_home _ _), hmid,
      fssCount_congr (fssView_update_fss_arg mk ms _ md)]
  · rw [hmid, fssCount_congr (fssView_update_fss_arg mk ms _ md)]

/-- C7 (amended): the first-scoring-shot statistic is set only from the
first legal delivery of the match (it stays unset when that delivery does
not score, even if a later delivery does); for every processed match the
categorical market increments the one bucket named by that statistic, and
no bucket otherwise. -/
theorem c7_first_scoring_shot (md : MatchData) (mk : Markets)
    (t1 t2 : String) (rest : List String) (h : md.info.teams = t1 :: t2 :: rest) :
    (calculate_match_stats md).first_scoring_shot
        = firstScoringShotSpec (matchDeliveries md)
    ∧ fssTotal (process_match_for_betting_markets md mk)
        = fssTotal mk
          + (match (calculate_match_stats md).first_scoring_shot with
             | some _ => 1 | none => 0)
    ∧ ∀ c, c ∈ fssCategories →
        fssCount (process_match_for_betting_markets md mk) c
          = fssCount mk c
            + (if (calculate_match_stats md).first_scoring_shot = some c
               then 1 else 0) := by
  have hchar := calculate_match_stats_fss md
  have hcat : ∀ x, (calculate_match_stats md).first_scoring_shot = some x →
      x ∈ fssCategories := by
    intro x hx
    rw [hchar] at hx
    exact fss_spec_mem _ x hx
  refine ⟨hchar, ?_, ?_⟩
  · rw [process_match_eq md mk t1 t2 rest h, fssTotal_update_markets,
      fssTotal_congr (fssView_pm_toss _ _ _ _), fssTotal_congr (fssView_pm_mw _ _ _ _)]
  · intro c hc
    rw [process_match_eq md mk t1 t2 rest h,
      fssCount_update_markets _ _ _ _ c hc hcat,
      fssCount_congr (fssView_pm_toss _ _ _ _),
      fssCount_congr (fssView_pm_mw _ _ _ _)]

/-! ## Per-innings summary of `get_betting_market_summary_dict`
(src/app.py lines 722-829) -/

/-- The per-innings `stats` dict (line 734); `'N/A'` for
`fall_of_1st_wicket` is `none`. -/
structure InnSummary where
  team : String
  total_runs : Int
  powerplay_runs : Int
  runs_overs_7_13 : Int
  runs_overs_14_20 : Int
  highest_over : Int
  fall_of_1st_wicket : Option Int
  runs_per_over : List Int
  first_over_runs : Int
  first_6_overs_runs : Int
  fours : Nat
  sixes : Nat
  wickets : Nat
  wides : Int
  deriving DecidableEq

/-- `sum(d['runs']['total'] for d in over.get('deliveries', []))` (line 739). -/
def over_runs_total (o : OverRec) : Int :=
  (o.deliveries.map (fun d => d.runs.total)).sum

/-- Per-delivery counters of the inner loop (lines 758-774). -/
def isd_counts (d : Delivery) (st : InnSummary) : InnSummary :=
  let st := if d.runs.batter == 4 then { st with fours := st.fours + 1 }
    else if d.runs.batter == 6 then { st with sixes := st.sixes + 1 } else st
  let st := if !d.wickets.isEmpty then { st with wickets := st.wickets + 1 } else st
  match d.extras with
  | some e =>
    match e.wides with
    | some w => { st with wides := st.wides + w }
    | none => st
  | none => st

/-- Fall-of-first-wicket tracking (lines 776-781). -/
def isd_fall (d : Delivery) (acc : InnSummary × Int × Bool) :
    InnSummary × Int × Bool :=
  let (st, running_score, wicket_fell) := acc
  if !wicket_fell then
    let rs := running_score + d.runs.total
    if !d.wickets.isEmpty then
      ({ st with fall_of_1st_wicket := some rs }, rs, true)
    else (st, rs, wicket_fell)
  else acc

def isum_delivery (acc : InnSummary × Int × Bool) (d : Delivery) :
    InnSummary × Int × Bool :=
  isd_fall d (isd_counts d acc.1, acc.2.1, acc.2.2)

/-- Over-level statistics of the loop body (lines 737-755; the cross-innings
`four_and_six_in_over` / `overs_with_wicket` counters are computed in the
same pass and modelled separately below). -/
def isum_over_stats (o : OverRec) (st : InnSummary) : InnSummary :=
  let over_num := o.over.getD (-1)
  let over_runs := over_runs_total o
  let st := { st with runs_per_over := st.runs_per_over ++ [over_runs] }
  let st := if st.highest_over < over_runs then { st with highest_over := over_runs }
    else st
  let st := if over_num < 6 then
      { st with powerplay_runs := st.powerplay_runs + over_runs,
                first_6_overs_runs := st.first_6_overs_runs + over_runs }
    else st
  let st := if over_num == 0 then { st with first_over_runs := over_runs } else st
  let st := if 6 ≤ over_num ∧ over_num ≤ 12 then
      { st with runs_overs_7_13 := st.runs_overs_7_13 + over_runs }
    else st
  if 13 ≤ over_num ∧ over_num ≤ 19 then
    { st with runs_overs_14_20 := st.runs_overs_14_20 + over_runs }
  else st

def isum_over (acc : InnSummary × Int × Bool) (o : OverRec) :
    InnSummary × Int × Bool :=
  o.deliveries.foldl isum_delivery (isum_over_stats o acc.1, acc.2.1, acc.2.2)

def initInnSummary (i : ℕ) (inn : InningRec) : InnSummary :=
  { team := inn.team.getD ("Innings " ++ toString (i + 1)), total_runs := 0,
    powerplay_runs := 0, runs_overs_7_13 := 0, runs_overs_14_20 := 0,
    highest_over := 0, fall_of_1st_wicket := none, runs_per_over := [],
    first_over_runs := 0, first_6_overs_runs := 0, fours := 0, sixes := 0,
    wickets := 0, wides := 0 }

/-- One innings of `get_betting_market_summary_dict` (lines 733-783);
`total_runs` is recomputed from scratch at line 782. -/
def inning_summary (i : ℕ) (inn : InningRec) : InnSummary :=
  let r := inn.overs.foldl isum_over (initInnSummary i inn, 0, false)
  { r.1 with total_runs := ((inningDeliveries inn).map (fun d => d.runs.total)).sum }

/-- `four_and_six_in_over` (lines 752-754): some over of the match has both
a four and a six off the bat. -/
def four_and_six_in_over (innings : List InningRec) : Bool :=
  innings.any (fun inn => inn.overs.any (fun o =>
    (o.deliveries.any (fun d => d.runs.batter == 4))
      && (o.deliveries.any (fun d => d.runs.batter == 6))))

/-- `overs_with_wicket` (line 755). -/
def overs_with_wicket (innings : List InningRec) : Nat :=
  (innings.map (fun inn =>
    (inn.overs.filter (fun o =>
      o.deliveries.any (fun d => !d.wickets.isEmpty))).length)).sum

/-! ### Characterization of the fall-of-first-wicket fold -/

/-- Running `totalRuns` score frozen at the first wicket-carrying delivery
(the spec's fall-of-first-wicket algorithm, §4.2). -/
def fallSpecFrom (rs : Int) : List Delivery → Option Int
  | [] => none
  | d :: ds =>
    let rs' := rs + d.runs.total
    if d.wickets.isEmpty then fallSpecFrom rs' ds else some rs'

def fallView (acc : InnSummary × Int × Bool) : Option Int × Int × Bool :=
  (acc.1.fall_of_1st_wicket, acc.2.1, acc.2.2)

def fallDStep (v : Option Int × Int × Bool) (d : Delivery) : Option Int × Int × Bool :=
  if !v.2.2 then
    let rs := v.2.1 + d.runs.total
    if !d.wickets.isEmpty then (some rs, rs, true) else (v.1, rs, v.2.2)
  else v

lemma fall_isd_counts (d : Delivery) (st : InnSummary) :
    (isd_counts d st).fall_of_1st_wicket = st.fall_of_1st_wicket := by
  unfold isd_counts
  dsimp only
  repeat' split
  all_goals rfl

lemma fallView_isum_delivery (acc : InnSummary × Int × Bool) (d : Delivery) :
    fallView (isum_delivery acc d) = fallDStep (fallView acc) d := by
  unfold isum_delivery isd_fall fallDStep fallView
  dsimp only
  repeat' split
  all_goals simp_all [fall_isd_counts]

lemma fall_isum_over_stats (o : OverRec) (st : InnSummary) :
    (isum_over_stats o st).fall_of_1st_wicket = st.fall_of_1st_wicket := by
  unfold isum_over_stats
  dsimp only
  repeat' split
  all_goals rfl

lemma fallView_foldl_deliveries (ds : List Delivery) (acc : InnSummary × Int × Bool) :
    fallView (ds.foldl isum_delivery acc) = ds.foldl fallDStep (fallView acc) := by
  induction ds generalizing acc with
  | nil => rfl
  | cons d ds ih => rw [List.foldl_cons, List.foldl_cons, ih, fallView_isum_delivery]

lemma fallView_isum_over (acc : InnSummary × Int × Bool) (o : OverRec) :
    fallView (isum_over acc o) = o.deliveries.foldl fallDStep (fallView acc) := by
  unfold isum_over
  rw [fallView_foldl_deliveries]
  have : fallView (isum_over_stats o acc.1, acc.2.1, acc.2.2) = fallView acc := by
    unfold fallView
    rw [fall_isum_over_stats]
  rw [this]

lemma fallView_foldl_overs (ovs : List OverRec) (acc : InnSummary × Int × Bool) :
    fallView (ovs.foldl isum_over acc)
      = ((ovs.map (fun o => o.deliveries)).flatten).foldl fallDStep (fallView acc) := by
  induction ovs generalizing acc with
  | nil => rfl
  | cons o ovs ih =>
    rw [List.foldl_cons, ih, List.map_cons, List.flatten_cons, List.foldl_append,
      fallView_isum_over]

lemma foldl_fallDStep_frozen (ds : List Delivery) (v : Option Int × Int × Bool)
    (h : v.2.2 = true) : ds.foldl fallDStep v = v := by
  induction ds with
  | nil => rfl
  | cons d ds ih =>
    rw [List.foldl_cons]
    have : fallDStep v d = v := by
      unfold fallDStep
      rw [h]
      rfl
    rw [this, ih]

lemma foldl_fallDStep_char (ds : List Delivery) (rs : Int) :
    (ds.foldl fallDStep (none, rs, false)).1 = fallSpecFrom rs ds := by
  induction ds generalizing rs with
  | nil => rfl
  | cons d ds ih =>
    rw [List.foldl_cons]
    by_cases hw : d.wickets.isEmpty
    · have hstep : fallDStep ((none : Option Int), rs, false) d
          = (none, rs + d.runs.total, false) := by
        unfold fallDStep
        simp [hw]
      rw [hstep, ih]
      simp [fallSpecFrom, hw]
    · have hstep : fallDStep ((none : Option Int), rs, false) d
          = (some (rs + d.runs.total), rs + d.runs.total, true) := by
        unfold fallDStep
        simp [hw]
      rw [hstep, foldl_fallDStep_frozen _ _ rfl]
      simp [fallSpecFrom, hw]

lemma inning_summary_fall (i : ℕ) (inn : InningRec) :
    (inning_summary i inn).fall_of_1st_wicket
      = fallSpecFrom 0 (inningDeliveries inn) := by
  have h0 : (inning_summary i inn).fall_of_1st_wicket
      = (fallView (inn.overs.foldl isum_over (initInnSummary i inn, 0, false))).1 := rfl
  rw [h0, fallView_foldl_overs]
  have hv : fallView (initInnSummary i inn, 0, false)
      = ((none : Option Int), (0 : Int), false) := rfl
  rw [hv, foldl_fallDStep_char]
  rfl

/-- Prefix form of `fallSpecFrom`: the recorded value is the sum of
`runs.total` over the deliveries up to and including the first
wicket-carrying one. -/
lemma fallSpecFrom_cons (rs : Int) (d : Delivery) (ds : List Delivery) :
    fallSpecFrom rs (d :: ds)
      = (if d.wickets.isEmpty then fallSpecFrom (rs + d.runs.total) ds
         else some (rs + d.runs.total)) := rfl

lemma fallSpecFrom_prefix (ds : List Delivery) (rs : Int) :
    fallSpecFrom rs ds
      = (match ds.dropWhile (fun d => d.wickets.isEmpty) with
         | [] => none
         | w :: _ => some (rs + ((((ds.takeWhile (fun d => d.wickets.isEmpty)) ++ [w]).map
             (fun d => d.runs.total)).sum))) := by
  induction ds generalizing rs with
  | nil => rfl
  | cons d ds ih =>
    by_cases hw : d.wickets.isEmpty
    · rw [fallSpecFrom_cons, if_pos hw, ih]
      rcases hdrop : ds.dropWhile (fun d => d.wickets.isEmpty) with _ | ⟨w, rest⟩ <;>
        simp [List.dropWhile_cons, List.takeWhile_cons, hw, hdrop] <;> ring
    · rw [fallSpecFrom_cons, if_neg hw]
      simp [List.dropWhile_cons, List.takeWhile_cons, hw]

/-- Frozen-ness: once a wicket has fallen in the prefix, later deliveries
never change the recorded value. -/
lemma fallSpecFrom_frozen (ds es : List Delivery) (rs : Int)
    (h : ∃ d ∈ ds, d.wickets ≠ []) :
    fallSpecFrom rs (ds ++ es) = fallSpecFrom rs ds := by
  induction ds generalizing rs with
  | nil => simp at h
  | cons d ds ih =>
    by_cases hw : d.wickets.isEmpty
    · have hne : ∃ d ∈ ds, d.wickets ≠ [] := by
        rcases h with ⟨x, hx, hxw⟩
        rcases hx with _ | hx
        · exact absurd (List.isEmpty_iff.mp hw) hxw
        · exact ⟨x, by assumption, hxw⟩
      rw [List.cons_append, fallSpecFrom_cons, if_pos hw, fallSpecFrom_cons, if_pos hw]
      exact ih _ hne
    · rw [List.cons_append, fallSpecFrom_cons, if_neg hw, fallSpecFrom_cons, if_neg hw]

/-! ## Concrete example data for counterexamples and witnesses -/

/-- A wide: one extra run, no batter runs, not a legal delivery. -/
def dWide : Delivery :=
  { batter := some "P", bowler := some "Q",
    runs := { batter := 0, extras := 1, total := 1 },
    extras := some { wides := some 1, noballs := none }, wickets := [] }

/-- A scoreless delivery on which a wicket falls. -/
def dWicket0 : Delivery :=
  { batter := some "P", bowler := some "Q",
    runs := { batter := 0, extras := 0, total := 0 },
    extras := none, wickets := [{ kind := some "bowled" }] }

/-- A legal dot ball. -/
def dDot : Delivery :=
  { batter := some "P", bowler := some "Q",
    runs := { batter := 0, extras := 0, total := 0 },
    extras := none, wickets := [] }

/-- A legal single. -/
def dSingle : Delivery :=
  { batter := some "P", bowler := some "Q",
    runs := { batter := 1, extras := 0, total := 1 },
    extras := none, wickets := [] }

def exInfoAB : MatchInfo :=
  { teams := ["A", "B"],
    toss := some { winner := some "A", decision := some "bat" },
    outcome := some { winner := some "A", result := none },
    venue := some "V", players := [("A", ["P"]), ("B", ["Q"])] }

/-- A wide before the first wicket: total runs 1, batter runs 0 at the fall
of the first wicket. -/
def c2cx_inn : InningRec :=
  { team := some "A", overs := [{ over := some 0, deliveries := [dWide, dWicket0] }] }

def c2cx_match : MatchData := { info := exInfoAB, innings := [c2cx_inn] }

/-- C2 counterexample: with a wide before the first wicket, the
betting-markets opening-partnership statistic is 0 while the sum of
`totalRuns` up to and including the first wicket-carrying delivery is 1 —
the claim's totalRuns-sum description is false of
`_calculate_match_stats`. -/
theorem c2_counterexample :
    (calculate_match_stats c2cx_match).first_wicket_runs = 0
  ∧ (calculate_match_stats c2cx_match).opening_partnerships = [0]
  ∧ fallSpecFrom 0 (matchDeliveries c2cx_match) = some 1
  ∧ (0 : Int) ≠ 1 := by
  refine ⟨?_, ?_, ?_, by decide⟩ <;> rfl

/-- C2 (amended): `get_betting_market_summary_dict`'s per-innings
`fall_of_1st_wicket` is the running sum of `totalRuns` frozen at (and
including) the first wicket-carrying delivery, and that running statistic is
frozen — deliveries after the first wicket never change it; but the
opening-partnership statistic of `_calculate_match_stats` accumulates only
the batter runs (`opSpecB`), one recorded value per innings in which a
wicket fell. -/
theorem c2_fall_first_wicket_amended :
    (∀ (i : ℕ) (inn : InningRec),
      (inning_summary i inn).fall_of_1st_wicket
        = fallSpecFrom 0 (inningDeliveries inn))
  ∧ (∀ (ds : List Delivery) (rs : Int),
      fallSpecFrom rs ds
        = (match ds.dropWhile (fun d => d.wickets.isEmpty) with
           | [] => none
           | w :: _ => some (rs + ((((ds.takeWhile (fun d => d.wickets.isEmpty))
               ++ [w]).map (fun d => d.runs.total)).sum))))
  ∧ (∀ (ds es : List Delivery) (rs : Int), (∃ d ∈ ds, d.wickets ≠ []) →
      fallSpecFrom rs (ds ++ es) = fallSpecFrom rs ds)
  ∧ (∀ md : MatchData,
      (calculate_match_stats md).opening_partnerships
        = md.innings.filterMap (fun inn => opSpecB 0 (inningDeliveries inn))) :=
  ⟨inning_summary_fall, fallSpecFrom_prefix, fallSpecFrom_frozen,
    calculate_match_stats_partnerships⟩

theorem c2_fall_first_wicket_amended_witness :
    (inning_summary 0 c2cx_inn).fall_of_1st_wicket
        = fallSpecFrom 0 (inningDeliveries c2cx_inn)
    ∧ fallSpecFrom 0 ([dWicket0] ++ [dSingle]) = fallSpecFrom 0 [dWicket0] :=
  ⟨c2_fall_first_wicket_amended.1 0 c2cx_inn,
   c2_fall_first_wicket_amended.2.2.1 [dWicket0] [dSingle] 0
     ⟨dWicket0, List.mem_singleton.mpr rfl, by decide⟩⟩

/-- A match whose only wicket falls at a partnership of zero. -/
def c6cx_match : MatchData :=
  { info := exInfoAB,
    innings := [{ team := some "A",
                  overs := [{ over := some 0, deliveries := [dWicket0] }] }] }

/-- C6 counterexample: for a processed match whose first wicket falls at
zero runs, the total-runs sample gains one entry but the
runs-at-fall-of-first-wicket sample gains none — not every numeric market
gains exactly one entry per match. -/
theorem c6_counterexample :
    c6cx_match.info.teams.length = 2
  ∧ (process_match_for_betting_markets c6cx_match initMarkets).total_runs.length = 1
  ∧ (process_match_for_betting_markets c6cx_match
      initMarkets).runs_at_fall_first_wicket.length = 0 :=
  ⟨rfl, rfl, rfl⟩

theorem c6_numeric_markets_one_entry_witness :
    (calculate_match_stats c6cx_match).total_runs
      = (((matchDeliveries c6cx_match).map (fun d => d.runs.total)).sum) :=
  (c6_numeric_markets_one_entry c6cx_match initMarkets "A" "B" [] rfl).2.1

theorem c10_match_winner_buckets_witness :
    mwTotal (process_match_for_betting_markets c6cx_match initMarkets)
      = mwTotal initMarkets + 1 :=
  (c10_match_winner_buckets c6cx_match initMarkets "A" "B" [] rfl).2

/-- A match whose first legal delivery is a dot and whose second delivery
scores a single. -/
def c7cx_match : MatchData :=
  { info := exInfoAB,
    innings := [{ team := some "A",
                  overs := [{ over := some 0, deliveries := [dDot, dSingle] }] }] }

/-- C7 counterexample: the match contains a scoring delivery, yet no
first-scoring-shot bucket is incremented, because the first legal delivery
was a dot. -/
theorem c7_counterexample :
    (∃ d ∈ matchDeliveries c7cx_match, 0 < d.runs.batter)
  ∧ fssTotal (process_match_for_betting_markets c7cx_match initMarkets) = 0 := by
  refine ⟨⟨dSingle, by decide, by decide⟩, rfl⟩

theorem c7_first_scoring_shot_witness :
    fssTotal (process_match_for_betting_markets c7cx_match initMarkets)
      = fssTotal initMarkets
        + (match (calculate_match_stats c7cx_match).first_scoring_shot with
           | some _ => 1 | none => 0) :=
  (c7_first_scoring_shot c7cx_match initMarkets "A" "B" [] rfl).2.1

/-! ## The raw delivery layer (claim C1)

The JSON schema allows `runs` to be either the structured object
`{batter, extras, total}` (possibly with missing keys) or a legacy bare
integer.  The source subscripts `delivery['runs']['batter']` /
`['total']` / `['extras']` directly, so a bare integer (`TypeError`) or a
missing sub-field (`KeyError`) raises; `Except Unit` models the raised
exception. -/

inductive RunsField
  | obj (batter extras total : Option Int)
  | bare (n : Int)
  deriving DecidableEq

/-- `delivery['runs']['batter']`. -/
def RunsField.batterE : RunsField → Except Unit Int
  | .obj (some b) _ _ => .ok b
  | .obj none _ _ => .error ()
  | .bare _ => .error ()

/-- `delivery['runs']['extras']`. -/
def RunsField.extrasE : RunsField → Except Unit Int
  | .obj _ (some e) _ => .ok e
  | .obj _ none _ => .error ()
  | .bare _ => .error ()

/-- `delivery['runs']['total']`. -/
def RunsField.totalE : RunsField → Except Unit Int
  | .obj _ _ (some t) => .ok t
  | .obj _ _ none => .error ()
  | .bare _ => .error ()

/-- The fully structured shape every subscripted access requires. -/
def RunsField.wf : RunsField → Bool
  | .obj (some _) (some _) (some _) => true
  | _ => false

structure RawDelivery where
  batter : Option String
  bowler : Option String
  runs : RunsField
  extras : Option ExtrasInfo
  wickets : List WicketInfo
  deriving DecidableEq

structure RawOver where
  over : Option Int
  deliveries : List RawDelivery
  deriving DecidableEq

structure RawInning where
  team : Option String
  overs : List RawOver
  deriving DecidableEq

structure RawMatchData where
  info : MatchInfo
  innings : List RawInning
  deriving DecidableEq

def Delivery.toRaw (d : Delivery) : RawDelivery :=
  { batter := d.batter, bowler := d.bowler,
    runs := .obj (some d.runs.batter) (some d.runs.extras) (some d.runs.total),
    extras := d.extras, wickets := d.wickets }

def OverRec.toRaw (o : OverRec) : RawOver :=
  { over := o.over, deliveries := o.deliveries.map Delivery.toRaw }

def InningRec.toRaw (inn : InningRec) : RawInning :=
  { team := inn.team, overs := inn.overs.map OverRec.toRaw }

def MatchData.toRaw (md : MatchData) : RawMatchData :=
  { info := md.info, innings := md.innings.map InningRec.toRaw }

def isLegalDeliveryR (d : RawDelivery) : Bool :=
  match d.extras with
  | none => true
  | some e => !(e.wides.isSome || e.noballs.isSome)

/-- The delivery body of `_calculate_match_stats` with the raw subscripted
accesses made explicit (lines 181-249). -/
def process_deliveryE (i o : ℕ) (os : OverState) (d : RawDelivery) :
    Except Unit OverState := do
  let runs ← d.runs.batterE
  let total ← d.runs.totalE
  pure (process_delivery i o (isLegalDeliveryR d) runs total d.batter d.wickets os)

def process_overE (i o : ℕ) (s : InnState) (ov : RawOver) : Except Unit InnState := do
  let os ← ov.deliveries.foldlM (process_deliveryE i o)
    { inn := s, over_runs := 0, over_boundaries := 0 }
  pure (over_post os)

def rawInningDeliveries (inn : RawInning) : List RawDelivery :=
  (inn.overs.map (fun o => o.deliveries)).flatten

def rawMatchDeliveries (rmd : RawMatchData) : List RawDelivery :=
  (rmd.innings.map rawInningDeliveries).flatten

/-- The second delivery loop (lines 279-281) on raw deliveries. -/
def sum_extras_inningE (inn : RawInning) : Except Unit Int :=
  (rawInningDeliveries inn).foldlM
    (fun a d => Except.bind d.runs.extrasE (fun e => Except.ok (a + e))) 0

def innInitR (stats0 : BMStats) (fbp0 : Bool) (inn : RawInning) : InnState :=
  { st := stats0, first_ball_processed := fbp0,
    ts := ((stats0.team_stats.lookup (inn.team.getD "Unknown")).getD initTeamBMStats),
    batsman_scores := [], current_partnership := 0, wickets_fallen := 0,
    first_wicket_found := false }

def process_inningE (acc : BMStats × Bool) (p : ℕ × RawInning) :
    Except Unit (BMStats × Bool) := do
  let inn := p.2
  let team := inn.team.getD "Unknown"
  let s1 ← (inn.overs.enum).foldlM (fun s q => process_overE p.1 q.1 s q.2)
    (innInitR acc.1 acc.2 inn)
  let s2 := apply_milestones s1
  let ex ← sum_extras_inningE inn
  let st := { s2.st with total_runs_out := s2.st.total_runs_out + ex }
  pure ({ st with team_stats := setAssoc st.team_stats team s2.ts },
    s2.first_ball_processed)

/-- `_calculate_match_stats` on raw input: raises (propagates `.error`) on
the first delivery whose `runs` field is a bare integer or lacks a
sub-field. -/
def calculate_match_statsE (rmd : RawMatchData) : Except Unit BMStats := do
  let r ← (rmd.innings.enum).foldlM (fun acc q => process_inningE acc q)
    (initBMStats, false)
  let st := r.1
  pure { st with
    total_boundaries := st.total_fours + st.total_sixes
    team_stats := st.team_stats.map
      (fun p => (p.1, { p.2 with boundaries := p.2.fours + p.2.sixes })) }

/-! ### Generic fold lemmas for the exception layer -/

lemma foldlM_map_ok {α β σ : Type} (g : α → β) (f' : σ → β → Except Unit σ)
    (f : σ → α → σ) (h : ∀ s a, f' s (g a) = .ok (f s a)) :
    ∀ (l : List α) (s : σ), (l.map g).foldlM f' s = .ok (l.foldl f s) := by
  intro l
  induction l with
  | nil => intro s; rfl
  | cons a l ih =>
    intro s
    rw [List.map_cons, List.foldlM_cons, h, List.foldl_cons]
    exact ih (f s a)

lemma foldlM_ok_exists {α σ : Type} (f' : σ → α → Except Unit σ)
    (l : List α) (h : ∀ s a, a ∈ l → ∃ s', f' s a = .ok s') (s : σ) :
    ∃ s', l.foldlM f' s = .ok s' := by
  induction l generalizing s with
  | nil => exact ⟨s, rfl⟩
  | cons a l ih =>
    obtain ⟨s', hs'⟩ := h s a (List.mem_cons_self a l)
    rw [List.foldlM_cons, hs']
    exact ih (fun t b hb => h t b (List.mem_cons_of_mem a hb)) s'

lemma foldlM_error_exists {α σ : Type} (f' : σ → α → Except Unit σ)
    (P : α → Prop) (l : List α)
    (hok : ∀ s a, a ∈ l → P a → ∃ s', f' s a = .ok s')
    (herr : ∀ s a, a ∈ l → ¬ P a → f' s a = .error ())
    (hex : ∃ a ∈ l, ¬ P a) (s : σ) : l.foldlM f' s = .error () := by
  induction l generalizing s with
  | nil => simp at hex
  | cons a l ih =>
    by_cases hp : P a
    · obtain ⟨s', hs'⟩ := hok s a (List.mem_cons_self a l) hp
      rw [List.foldlM_cons, hs']
      have hex' : ∃ b ∈ l, ¬ P b := by
        rcases hex with ⟨b, hb, hnb⟩
        rcases hb with _ | hb
        · exact absurd hp hnb
        · exact ⟨b, by assumption, hnb⟩
      exact ih (fun t b hb hbp => hok t b (List.mem_cons_of_mem a hb) hbp)
        (fun t b hb hbp => herr t b (List.mem_cons_of_mem a hb) hbp) hex' s'
    · rw [List.foldlM_cons, herr s a (List.mem_cons_self a l) hp]
      rfl

/-! ### Bridge: on fully structured input the raw layer computes the pure
statistics -/

lemma process_deliveryE_toRaw (i o : ℕ) (os : OverState) (d : Delivery) :
    process_deliveryE i o os d.toRaw = .ok (process_delivery_step i o os d) := rfl

lemma process_overE_toRaw (i o : ℕ) (s : InnState) (ov : OverRec) :
    process_overE i o s ov.toRaw = .ok (process_over i o s ov) := by
  unfold process_overE OverRec.toRaw process_over
  rw [foldlM_map_ok Delivery.toRaw (process_deliveryE i o) (process_delivery_step i o)
    (fun s d => process_deliveryE_toRaw i o s d)]
  rfl

lemma foldl_add_extras (ds : List Delivery) (b : Int) :
    ds.foldl (fun a d => a + d.runs.extras) b
      = b + ((ds.map (fun d => d.runs.extras)).sum) := by
  induction ds generalizing b with
  | nil => simp
  | cons d ds ih =>
    rw [List.foldl_cons, ih]
    simp
    ring

lemma rawInningDeliveries_toRaw (inn : InningRec) :
    rawInningDeliveries inn.toRaw = (inningDeliveries inn).map Delivery.toRaw := by
  unfold rawInningDeliveries InningRec.toRaw inningDeliveries
  dsimp only
  induction inn.overs with
  | nil => rfl
  | cons o ovs ih =>
    simp only [List.map_cons, List.flatten_cons, List.map_append, ih]
    rfl

lemma sum_extras_inningE_toRaw (inn : InningRec) :
    sum_extras_inningE inn.toRaw = .ok (sum_extras_inning inn) := by
  unfold sum_extras_inningE
  rw [rawInningDeliveries_toRaw,
    foldlM_map_ok Delivery.toRaw _ (fun a d => a + d.runs.extras)
      (fun a d => rfl),
    foldl_add_extras]
  unfold sum_extras_inning inningDeliveries
  norm_num

lemma process_inningE_toRaw (acc : BMStats × Bool) (i : ℕ) (inn : InningRec) :
    process_inningE acc (i, inn.toRaw) = .ok (process_inning acc (i, inn)) := by
  unfold process_inningE process_inning
  have hinit : innInitR acc.1 acc.2 inn.toRaw = innInit acc.1 acc.2 inn := rfl
  have henum : inn.toRaw.overs.enum
      = inn.overs.enum.map (Prod.map id OverRec.toRaw) := by
    unfold InningRec.toRaw
    rw [List.enum_map]
  dsimp only
  rw [hinit, henum,
    foldlM_map_ok (Prod.map id OverRec.toRaw)
      (fun s q => process_overE i q.1 s q.2)
      (fun s q => process_over i q.1 s q.2)
      (fun s q => process_overE_toRaw i q.1 s q.2)]
  show (Except.ok (innFold i inn (innInit acc.1 acc.2 inn)) >>= _) = _
  rw [show ∀ (x : InnState) (g : InnState → Except Unit (BMStats × Bool)),
      (Except.ok x >>= g) = g x from fun x g => rfl]
  rw [sum_extras_inningE_toRaw]
  rfl

lemma calculate_match_statsE_toRaw (md : MatchData) :
    calculate_match_statsE md.toRaw = .ok (calculate_match_stats md) := by
  unfold calculate_match_statsE calculate_match_stats
  have henum : md.toRaw.innings.enum
      = md.innings.enum.map (Prod.map id InningRec.toRaw) := by
    unfold MatchData.toRaw
    rw [List.enum_map]
  rw [henum,
    foldlM_map_ok (Prod.map id InningRec.toRaw)
      (fun acc q => process_inningE acc q)
      (fun acc q => process_inning acc q)
      (fun acc q => process_inningE_toRaw acc q.1 q.2)]
  rfl

/-! ### Error propagation: any malformed `runs` field aborts the match
statistics computation -/

/-- The sub-fields read in the main delivery loop (`batter`, `total`). -/
def RunsField.mainWf : RunsField → Bool
  | .obj (some _) _ (some _) => true
  | _ => false

/-- The sub-field read in the extras loop. -/
def RunsField.extrasWf : RunsField → Bool
  | .obj _ (some _) _ => true
  | _ => false

lemma wf_iff_main_extras (rf : RunsField) :
    rf.wf = true ↔ (rf.mainWf = true ∧ rf.extrasWf = true) := by
  rcases rf with ⟨b, e, t⟩ | n
  · rcases b with _ | b <;> rcases e with _ | e <;> rcases t with _ | t <;>
      simp [RunsField.wf, RunsField.mainWf, RunsField.extrasWf]
  · simp [RunsField.wf, RunsField.mainWf, RunsField.extrasWf]

lemma process_deliveryE_ok_of (i o : ℕ) (s : OverState) (d : RawDelivery)
    (h : d.runs.mainWf = true) : ∃ os', process_deliveryE i o s d = .ok os' := by
  rcases hr : d.runs with ⟨b, e, t⟩ | n
  · rw [hr] at h
    rcases b with _ | b <;> rcases t with _ | t <;>
      simp [RunsField.mainWf] at h
    exact ⟨process_delivery i o (isLegalDeliveryR d) b t d.batter d.wickets s,
      by unfold process_deliveryE; rw [hr]; rfl⟩
  · rw [hr] at h
    simp [RunsField.mainWf] at h

lemma process_deliveryE_error_of (i o : ℕ) (s : OverState) (d : RawDelivery)
    (h : d.runs.mainWf = false) : process_deliveryE i o s d = .error () := by
  rcases hr : d.runs with ⟨b, e, t⟩ | n
  · rw [hr] at h
    unfold process_deliveryE
    rw [hr]
    rcases b with _ | b <;> rcases t with _ | t <;>
      first
      | rfl
      | (simp [RunsField.mainWf] at h)
  · unfold process_deliveryE
    rw [hr]
    rfl

lemma process_overE_ok_of (i o : ℕ) (s : InnState) (ov : RawOver)
    (h : ∀ d ∈ ov.deliveries, d.runs.mainWf = true) :
    ∃ s', process_overE i o s ov = .ok s' := by
  obtain ⟨os', hos'⟩ := foldlM_ok_exists (process_deliveryE i o) ov.deliveries
    (fun t d hd => process_deliveryE_ok_of i o t d (h d hd))
    { inn := s, over_runs := 0, over_boundaries := 0 }
  refine ⟨over_post os', ?_⟩
  unfold process_overE
  rw [hos']
  rfl

lemma process_overE_error_of (i o : ℕ) (s : InnState) (ov : RawOver)
    (h : ∃ d ∈ ov.deliveries, d.runs.mainWf = false) :
    process_overE i o s ov = .error () := by
  have herr := foldlM_error_exists (process_deliveryE i o)
    (fun d => d.runs.mainWf = true) ov.deliveries
    (fun t d hd hp => process_deliveryE_ok_of i o t d hp)
    (fun t d hd hp => process_deliveryE_error_of i o t d (by simpa using hp))
    (by
      rcases h with ⟨d, hd, hw⟩
      exact ⟨d, hd, by simp [hw]⟩)
    { inn := s, over_runs := 0, over_boundaries := 0 }
  unfold process_overE
  rw [herr]
  rfl

lemma snd_mem_of_mem_enum {α : Type} {l : List α} {q : ℕ × α} (h : q ∈ l.enum) :
    q.2 ∈ l := by
  have := List.mem_map_of_mem Prod.snd h
  rwa [List.enum_map_snd] at this

lemma exists_enum_of_mem {α : Type} {l : List α} {o : α} (h : o ∈ l) :
    ∃ q ∈ l.enum, q.2 = o := by
  obtain ⟨n, hn, rfl⟩ := List.mem_iff_getElem.mp h
  refine ⟨l.enum.get ⟨n, by simpa using hn⟩, List.get_mem _ _ _, ?_⟩
  rw [List.get_eq_getElem, List.getElem_enum]

lemma except_bind_ok {A B : Type} (x : A) (g : A → Except Unit B) :
    (Except.ok x >>= g) = g x := rfl

lemma except_bind_err {A B : Type} (g : A → Except Unit B) :
    ((Except.error () : Except Unit A) >>= g) = .error () := rfl

lemma except_pure {A : Type} (x : A) : (pure x : Except Unit A) = .ok x := rfl

lemma sum_extras_inningE_ok_of (inn : RawInning)
    (h : ∀ d ∈ rawInningDeliveries inn, d.runs.extrasWf = true) :
    ∃ v, sum_extras_inningE inn = .ok v := by
  apply foldlM_ok_exists
  intro a d hd
  have hw := h d hd
  rcases hr : d.runs with ⟨b, e, t⟩ | n
  · rw [hr] at hw
    rcases e with _ | e
    · simp [RunsField.extrasWf] at hw
    · exact ⟨a + e, rfl⟩
  · rw [hr] at hw
    simp [RunsField.extrasWf] at hw

lemma sum_extras_inningE_error_of (inn : RawInning)
    (h : ∃ d ∈ rawInningDeliveries inn, d.runs.extrasWf = false) :
    sum_extras_inningE inn = .error () := by
  apply foldlM_error_exists _ (fun d => d.runs.extrasWf = true)
  · intro a d hd hp
    have hp' : d.runs.extrasWf = true := hp
    rcases hr : d.runs with ⟨b, e, t⟩ | n
    · rw [hr] at hp'
      rcases e with _ | e
      · simp [RunsField.extrasWf] at hp'
      · exact ⟨a + e, rfl⟩
    · rw [hr] at hp'
      simp [RunsField.extrasWf] at hp'
  · intro a d hd hp
    have hf : d.runs.extrasWf = false := by simpa using hp
    rcases hr : d.runs with ⟨b, e, t⟩ | n
    · rw [hr] at hf
      rcases e with _ | e
      · rfl
      · simp [RunsField.extrasWf] at hf
    · rfl
  · rcases h with ⟨d, hd, hf⟩
    exact ⟨d, hd, by simp [hf]⟩

lemma mem_rawInningDeliveries {inn : RawInning} {o : RawOver} {d : RawDelivery}
    (ho : o ∈ inn.overs) (hd : d ∈ o.deliveries) : d ∈ rawInningDeliveries inn :=
  List.mem_flatten.mpr ⟨o.deliveries, List.mem_map_of_mem _ ho, hd⟩

lemma process_inningE_eq_of_ok (acc : BMStats × Bool) (p : ℕ × RawInning)
    (s1 : InnState) (v : Int)
    (hs1 : (p.2.overs.enum).foldlM (fun s q => process_overE p.1 q.1 s q.2)
      (innInitR acc.1 acc.2 p.2) = .ok s1)
    (hv : sum_extras_inningE p.2 = .ok v) :
    process_inningE acc p = .ok
      (({ { (apply_milestones s1).st with
            total_runs_out := (apply_milestones s1).st.total_runs_out + v } with
          team_stats := setAssoc
            ({ (apply_milestones s1).st with
               total_runs_out := (apply_milestones s1).st.total_runs_out + v }).team_stats
            (p.2.team.getD "Unknown") (apply_milestones s1).ts },
        (apply_milestones s1).first_ball_processed)) := by
  simp only [process_inningE, hs1, except_bind_ok, hv, except_pure]

lemma process_inningE_ok_of (acc : BMStats × Bool) (p : ℕ × RawInning)
    (h : ∀ d ∈ rawInningDeliveries p.2, d.runs.wf = true) :
    ∃ r, process_inningE acc p = .ok r := by
  have hmain : ∀ d ∈ rawInningDeliveries p.2, d.runs.mainWf = true :=
    fun d hd => ((wf_iff_main_extras d.runs).mp (h d hd)).1
  have hextras : ∀ d ∈ rawInningDeliveries p.2, d.runs.extrasWf = true :=
    fun d hd => ((wf_iff_main_extras d.runs).mp (h d hd)).2
  obtain ⟨s1, hs1⟩ := foldlM_ok_exists
    (fun s q => process_overE p.1 q.1 s q.2) p.2.overs.enum
    (fun s q hq => process_overE_ok_of p.1 q.1 s q.2
      (fun d hd => hmain d (mem_rawInningDeliveries (snd_mem_of_mem_enum hq) hd)))
    (innInitR acc.1 acc.2 p.2)
  obtain ⟨v, hv⟩ := sum_extras_inningE_ok_of p.2 hextras
  exact ⟨_, process_inningE_eq_of_ok acc p s1 v hs1 hv⟩

set_option maxHeartbeats 1000000 in
lemma process_inningE_error_of (acc : BMStats × Bool) (p : ℕ × RawInning)
    (h : ∃ d ∈ rawInningDeliveries p.2, d.runs.wf = false) :
    process_inningE acc p = .error () := by
  by_cases hmain : ∀ d ∈ rawInningDeliveries p.2, d.runs.mainWf = true
  · -- the main loop succeeds; the extras loop raises
    obtain ⟨s1, hs1⟩ := foldlM_ok_exists
      (fun s q => process_overE p.1 q.1 s q.2) p.2.overs.enum
      (fun s q hq => process_overE_ok_of p.1 q.1 s q.2
        (fun d hd => hmain d (mem_rawInningDeliveries (snd_mem_of_mem_enum hq) hd)))
      (innInitR acc.1 acc.2 p.2)
    have hex : ∃ d ∈ rawInningDeliveries p.2, d.runs.extrasWf = false := by
      rcases h with ⟨d, hd, hw⟩
      refine ⟨d, hd, ?_⟩
      have hm := hmain d hd
      rcases hww : d.runs.extrasWf with _ | _
      · rfl
      · exact absurd (by rw [(wf_iff_main_extras d.runs).mpr ⟨hm, hww⟩] at hw; exact hw)
          (by simp)
    have hserr := sum_extras_inningE_error_of p.2 hex
    simp only [process_inningE, hs1, except_bind_ok, hserr, except_bind_err]
  · -- some delivery fails in the main loop
    push_neg at hmain
    obtain ⟨d, hd, hw⟩ := hmain
    obtain ⟨l, hl, hdl⟩ := List.mem_flatten.mp hd
    obtain ⟨o, ho, rfl⟩ := List.mem_map.mp hl
    obtain ⟨q, hq, hq2⟩ := exists_enum_of_mem ho
    have herr := foldlM_error_exists
      (fun s q => process_overE p.1 q.1 s q.2)
      (fun q => ∀ d ∈ q.2.deliveries, d.runs.mainWf = true) p.2.overs.enum
      (fun s q hq hp => process_overE_ok_of p.1 q.1 s q.2 hp)
      (fun s q hq hp => process_overE_error_of p.1 q.1 s q.2 (by
        have hp' : ¬ ∀ d ∈ q.2.deliveries, d.runs.mainWf = true := hp
        push_neg at hp'
        obtain ⟨x, hx, hxw⟩ := hp'
        exact ⟨x, hx, by simpa using hxw⟩))
      (⟨q, hq, by
        intro hall
        have hall' : ∀ d ∈ q.2.deliveries, d.runs.mainWf = true := hall
        have := hall' d (hq2 ▸ hdl)
        rw [this] at hw
        simp at hw⟩)
      (innInitR acc.1 acc.2 p.2)
    simp only [process_inningE, herr, except_bind_err]

lemma mem_rawMatchDeliveries {rmd : RawMatchData} {inn : RawInning} {d : RawDelivery}
    (hi : inn ∈ rmd.innings) (hd : d ∈ rawInningDeliveries inn) :
    d ∈ rawMatchDeliveries rmd :=
  List.mem_flatten.mpr ⟨rawInningDeliveries inn, List.mem_map_of_mem _ hi, hd⟩

/-- C1 (amended): the statistics computation requires the structured
`runs` form with all three sub-fields present.  On fully structured input
it computes the pure statistics; a legacy bare-integer `runs` value, or a
missing sub-field, raises instead of contributing its integer (or zero)
runs, aborting the whole match's statistics. -/
theorem c1_runs_encoding_amended :
    (∀ md : MatchData, calculate_match_statsE md.toRaw = .ok (calculate_match_stats md))
  ∧ (∀ rmd : RawMatchData, (∃ d ∈ rawMatchDeliveries rmd, d.runs.wf = false) →
      calculate_match_statsE rmd = .error ()) := by
  refine ⟨calculate_match_statsE_toRaw, ?_⟩
  intro rmd hex
  obtain ⟨d, hd, hw⟩ := hex
  obtain ⟨l, hl, hdl⟩ := List.mem_flatten.mp hd
  obtain ⟨inn, hi, rfl⟩ := List.mem_map.mp hl
  obtain ⟨q, hq, hq2⟩ := exists_enum_of_mem hi
  have herr := foldlM_error_exists
    (fun acc q => process_inningE acc q)
    (fun q : ℕ × RawInning => ∀ d ∈ rawInningDeliveries q.2, d.runs.wf = true)
    rmd.innings.enum
    (fun acc q hq hp => process_inningE_ok_of acc q hp)
    (fun acc q hq hp => process_inningE_error_of acc q (by
      have hp' : ¬ ∀ d ∈ rawInningDeliveries q.2, d.runs.wf = true := hp
      push_neg at hp'
      obtain ⟨x, hx, hxw⟩ := hp'
      exact ⟨x, hx, by simpa using hxw⟩))
    (⟨q, hq, by
      intro hall
      have hall' : ∀ d ∈ rawInningDeliveries q.2, d.runs.wf = true := hall
      have := hall' d (hq2 ▸ hdl)
      rw [this] at hw
      simp at hw⟩)
    (initBMStats, false)
  simp only [calculate_match_statsE, herr, except_bind_err]

/-- A raw match whose only delivery uses the legacy bare-integer runs
encoding (`runs = 4`). -/
def c1cx_raw : RawMatchData :=
  { info := exInfoAB,
    innings := [{ team := some "A",
                  overs := [{ over := some 0,
                              deliveries := [{ batter := some "P", bowler := some "Q",
                                               runs := .bare 4, extras := none,
                                               wickets := [] }] }] }] }

/-- The claim's reading of that match: the bare integer interpreted as
batterRuns = totalRuns = 4, extrasRuns = 0. -/
def c1cx_claim_interp : MatchData :=
  { info := exInfoAB,
    innings := [{ team := some "A",
                  overs := [{ over := some 0,
                              deliveries := [{ batter := some "P", bowler := some "Q",
                                               runs := { batter := 4, extras := 0,
                                                         total := 4 },
                                               extras := none, wickets := [] }] }] }] }

/-- C1 counterexample: processing a delivery whose `runs` field is the bare
integer 4 raises (the match is skipped / the computation aborts); it is not
interpreted as batterRuns = totalRuns = 4 with extras 0. -/
theorem c1_counterexample :
    calculate_match_statsE c1cx_raw = .error ()
  ∧ calculate_match_statsE c1cx_raw
      ≠ .ok (calculate_match_stats c1cx_claim_interp) := by
  constructor
  · rfl
  · intro h
    rw [show calculate_match_statsE c1cx_raw = .error () from rfl] at h
    cases h

theorem c1_runs_encoding_amended_witness :
    calculate_match_statsE c1cx_claim_interp.toRaw
        = .ok (calculate_match_stats c1cx_claim_interp)
    ∧ calculate_match_statsE c1cx_raw = .error () :=
  ⟨c1_runs_encoding_amended.1 c1cx_claim_interp,
   c1_runs_encoding_amended.2 c1cx_raw
     ⟨{ batter := some "P", bowler := some "Q", runs := .bare 4, extras := none,
        wickets := [] }, by decide, rfl⟩⟩

/-! ## C3: per-match player summaries (src/app.py lines 687-720)

`get_player_summaries_single_match` keeps one mutable stats dict per squad
member and walks every delivery of every over of every innings. -/

/-- One player's entry of `player_stats` (line 690). -/
structure PStat where
  team : String
  runs : Int
  balls_faced : Nat
  fours : Nat
  sixes : Nat
  runs_conceded : Int
  balls_bowled : Nat
  wickets : Nat
  deriving DecidableEq

def initPStat (t : String) : PStat :=
  { team := t, runs := 0, balls_faced := 0, fours := 0, sixes := 0,
    runs_conceded := 0, balls_bowled := 0, wickets := 0 }

/-- The dict comprehension of line 690: one zeroed entry per squad member,
keyed by player name. -/
def init_player_stats (players : List (String × List String)) :
    List (String × PStat) :=
  players.foldl (fun acc q => q.2.foldl (fun a p => setAssoc a p (initPStat q.1)) acc) []

/-- Batter-side update, lines 698-701: `runs`, `balls_faced` (incremented on
every delivery faced, with no legality test), `fours`, `sixes`. -/
def bat_update (d : Delivery) (s : PStat) : PStat :=
  let s1 := { s with runs := s.runs + d.runs.batter,
                     balls_faced := s.balls_faced + 1 }
  let s2 := if d.runs.batter = 4 then { s1 with fours := s1.fours + 1 } else s1
  if d.runs.batter = 6 then { s2 with sixes := s2.sixes + 1 } else s2

/-- Bowler-side update, lines 704-706: `runs_conceded`, `balls_bowled`
(again incremented on every delivery), `wickets` when the delivery carries
a `wickets` key. -/
def bowl_update (d : Delivery) (s : PStat) : PStat :=
  let s1 := { s with runs_conceded := s.runs_conceded + d.runs.total,
                     balls_bowled := s.balls_bowled + 1 }
  if d.wickets.isEmpty then s1 else { s1 with wickets := s1.wickets + 1 }

/-- `if name in player_stats:` followed by in-place mutation of the entry. -/
def updAssoc {α : Type} (l : List (String × α)) (k : String) (f : α → α) :
    List (String × α) :=
  if l.any (fun q => q.1 == k) then
    l.map (fun q => if q.1 == k then (q.1, f q.2) else q)
  else l

/-- Lines 695-706: the effect of one delivery on `player_stats`. -/
def ps_delivery (stats : List (String × PStat)) (d : Delivery) :
    List (String × PStat) :=
  ps_bowler (match d.batter with
             | some b => updAssoc stats b (bat_update d)
             | none => stats) d
where
  ps_bowler (stats : List (String × PStat)) (d : Delivery) :
      List (String × PStat) :=
    match d.bowler with
    | some bw => updAssoc stats bw (bowl_update d)
    | none => stats

/-- `player_stats` after the triple loop of lines 692-706. -/
def player_stats_single_match (md : MatchData) : List (String × PStat) :=
  (matchDeliveries md).foldl ps_delivery (init_player_stats md.info.players)

/-- Line 708: batting rows keep players with at least one ball faced (the
later sort by runs only permutes rows and is omitted). -/
def batting_rows (md : MatchData) : List (String × PStat) :=
  (player_stats_single_match md).filter (fun q => decide (0 < q.2.balls_faced))

/-- Line 709. -/
def bowling_rows (md : MatchData) : List (String × PStat) :=
  (player_stats_single_match md).filter (fun q => decide (0 < q.2.balls_bowled))

/-- Line 715: `(runs / balls_faced.replace(0, 1) * 100).round(2)`. -/
def strike_rate_of (runs : Int) (bf : Nat) : ℚ :=
  roundTo 2 ((runs : ℚ) / (if bf = 0 then 1 else (bf : ℚ)) * 100)

/-- Line 718: `(runs_conceded / (balls_bowled.replace(0, 1) / 6)).round(2)`. -/
def economy_rate_of (rc : Int) (bb : Nat) : ℚ :=
  roundTo 2 ((rc : ℚ) / ((if bb = 0 then 1 else (bb : ℚ)) / 6))

lemma lookup_eq_none_of_not_any {α : Type} (l : List (String × α)) (k : String)
    (h : l.any (fun q => q.1 == k) = false) : l.lookup k = none := by
  induction l with
  | nil => rfl
  | cons hd tl ih =>
    obtain ⟨a, b⟩ := hd
    simp only [List.any_cons, Bool.or_eq_false_iff] at h
    have h1 : (k == a) = false := by
      rw [beq_eq_false_iff_ne]
      intro he
      rw [he] at h
      simp at h
    simp [List.lookup, h1, ih h.2]

lemma lookup_cons_pair {α : Type} (a p : String) (b : α) (tl : List (String × α)) :
    List.lookup p ((a, b) :: tl) = if p == a then some b else tl.lookup p := by
  cases h : p == a <;> simp [List.lookup, h]

lemma lookup_map_upd {α : Type} (l : List (String × α)) (k : String) (f : α → α)
    (p : String) :
    (l.map (fun q => if q.1 == k then (q.1, f q.2) else q)).lookup p =
      if p = k then (l.lookup k).map f else l.lookup p := by
  induction l with
  | nil => by_cases hpk : p = k <;> simp [List.lookup, hpk]
  | cons hd tl ih =>
    obtain ⟨a, b⟩ := hd
    rw [List.map_cons]
    by_cases hpk : p = k
    · rw [if_pos hpk] at ih ⊢
      subst hpk
      cases hak : (a == p) with
      | true =>
        have hpa : (p == a) = true := by
          rw [beq_iff_eq] at hak ⊢
          exact hak.symm
        rw [if_pos (Eq.refl true), lookup_cons_pair, lookup_cons_pair,
          if_pos hpa, if_pos hpa]
        rfl
      | false =>
        have hpa : (p == a) = false := by
          rw [beq_eq_false_iff_ne] at hak ⊢
          exact fun h => hak h.symm
        rw [if_neg Bool.false_ne_true, lookup_cons_pair, lookup_cons_pair,
          if_neg (by simp [hpa]), if_neg (by simp [hpa])]
        exact ih
    · rw [if_neg hpk] at ih ⊢
      cases hak : (a == k) with
      | true =>
        rw [if_pos (Eq.refl true), lookup_cons_pair, lookup_cons_pair]
        cases hpa : (p == a) with
        | true =>
          exact absurd ((by rwa [beq_iff_eq] at hpa : p = a).trans
            (by rwa [beq_iff_eq] at hak)) hpk
        | false =>
          rw [if_neg Bool.false_ne_true, if_neg Bool.false_ne_true]
          exact ih
      | false =>
        rw [if_neg Bool.false_ne_true, lookup_cons_pair, lookup_cons_pair]
        cases hpa : (p == a) with
        | true => rw [if_pos (Eq.refl true), if_pos (Eq.refl true)]
        | false =>
          rw [if_neg Bool.false_ne_true, if_neg Bool.false_ne_true]
          exact ih

lemma lookup_updAssoc {α : Type} (l : List (String × α)) (k : String) (f : α → α)
    (p : String) :
    (updAssoc l k f).lookup p =
      if p = k then (l.lookup k).map f else l.lookup p := by
  unfold updAssoc
  cases hany : l.any (fun q => q.1 == k)
  · simp only [Bool.false_eq_true, if_false]
    by_cases hpk : p = k
    · subst hpk
      rw [lookup_eq_none_of_not_any l p hany, if_pos rfl]
      rfl
    · rw [if_neg hpk]
  · simp only [if_true]
    exact lookup_map_upd l k f p

/-- The per-player trace of `ps_delivery`: what one delivery does to one
player's row. -/
def pstep (p : String) (s : PStat) (d : Delivery) : PStat :=
  pstep_bowl p (if d.batter = some p then bat_update d s else s) d
where
  pstep_bowl (p : String) (s : PStat) (d : Delivery) : PStat :=
    if d.bowler = some p then bowl_update d s else s

lemma lookup_ps_delivery (stats : List (String × PStat)) (d : Delivery)
    (p : String) :
    (ps_delivery stats d).lookup p =
      (stats.lookup p).map (fun s => pstep p s d) := by
  have hbat : ∀ m : List (String × PStat),
      m.lookup p = (stats.lookup p).map
        (fun s => if d.batter = some p then bat_update d s else s) →
      (ps_delivery.ps_bowler m d).lookup p =
        (stats.lookup p).map (fun s => pstep p s d) := by
    intro m hm
    unfold ps_delivery.ps_bowler pstep pstep.pstep_bowl
    cases hw : d.bowler with
    | none => rw [hm]; cases stats.lookup p <;> simp
    | some bw =>
      by_cases hpw : p = bw
      · subst hpw
        rw [lookup_updAssoc, if_pos rfl, hm]
        cases stats.lookup p <;> simp
      · have hne : ¬ (some bw = some p) := by
          intro hc
          exact hpw (Option.some.injEq bw p ▸ hc).symm
        rw [lookup_updAssoc, if_neg hpw, hm]
        cases stats.lookup p <;> simp [hne]

  unfold ps_delivery
  refine hbat _ ?_
  cases hb : d.batter with
  | none =>
    cases stats.lookup p <;> simp
  | some b =>
    by_cases hpb : p = b
    · subst hpb
      rw [lookup_updAssoc, if_pos rfl]
      cases stats.lookup p <;> simp
    · have hne : ¬ (some b = some p) := by
        intro hc
        exact hpb (Option.some.injEq b p ▸ hc).symm
      rw [lookup_updAssoc, if_neg hpb]
      cases stats.lookup p <;> simp [hne]

lemma pstep_balls_faced (p : String) (s : PStat) (d : Delivery) :
    (pstep p s d).balls_faced =
      s.balls_faced + (if d.batter == some p then 1 else 0) := by
  simp only [pstep, pstep.pstep_bowl, bat_update, bowl_update]
  repeat' split
  all_goals simp_all

lemma pstep_runs (p : String) (s : PStat) (d : Delivery) :
    (pstep p s d).runs =
      s.runs + (if d.batter == some p then d.runs.batter else 0) := by
  simp only [pstep, pstep.pstep_bowl, bat_update, bowl_update]
  repeat' split
  all_goals simp_all

lemma pstep_balls_bowled (p : String) (s : PStat) (d : Delivery) :
    (pstep p s d).balls_bowled =
      s.balls_bowled + (if d.bowler == some p then 1 else 0) := by
  simp only [pstep, pstep.pstep_bowl, bat_update, bowl_update]
  repeat' split
  all_goals simp_all

lemma pstep_runs_conceded (p : String) (s : PStat) (d : Delivery) :
    (pstep p s d).runs_conceded =
      s.runs_conceded + (if d.bowler == some p then d.runs.total else 0) := by
  simp only [pstep, pstep.pstep_bowl, bat_update, bowl_update]
  repeat' split
  all_goals simp_all

lemma foldl_pstep_balls_faced (p : String) (ds : List Delivery) (s : PStat) :
    (ds.foldl (pstep p) s).balls_faced =
      s.balls_faced + ds.countP (fun d => d.batter == some p) := by
  induction ds generalizing s with
  | nil => simp
  | cons d ds ih =>
    rw [List.foldl_cons, ih, pstep_balls_faced, List.countP_cons]
    cases h : (d.batter == some p) <;> simp [h] <;> omega

lemma foldl_pstep_runs (p : String) (ds : List Delivery) (s : PStat) :
    (ds.foldl (pstep p) s).runs =
      s.runs + ((ds.filter (fun d => d.batter == some p)).map
        (fun d => d.runs.batter)).sum := by
  induction ds generalizing s with
  | nil => simp
  | cons d ds ih =>
    rw [List.foldl_cons, ih, pstep_runs, List.filter_cons]
    cases h : (d.batter == some p) <;> simp [h] <;> omega

lemma foldl_pstep_balls_bowled (p : String) (ds : List Delivery) (s : PStat) :
    (ds.foldl (pstep p) s).balls_bowled =
      s.balls_bowled + ds.countP (fun d => d.bowler == some p) := by
  induction ds generalizing s with
  | nil => simp
  | cons d ds ih =>
    rw [List.foldl_cons, ih, pstep_balls_bowled, List.countP_cons]
    cases h : (d.bowler == some p) <;> simp [h] <;> omega

lemma foldl_pstep_runs_conceded (p : String) (ds : List Delivery) (s : PStat) :
    (ds.foldl (pstep p) s).runs_conceded =
      s.runs_conceded + ((ds.filter (fun d => d.bowler == some p)).map
        (fun d => d.runs.total)).sum := by
  induction ds generalizing s with
  | nil => simp
  | cons d ds ih =>
    rw [List.foldl_cons, ih, pstep_runs_conceded, List.filter_cons]
    cases h : (d.bowler == some p) <;> simp [h] <;> omega

lemma lookup_foldl_ps (ds : List Delivery) (acc : List (String × PStat))
    (p : String) :
    ((ds.foldl ps_delivery acc).lookup p) =
      (acc.lookup p).map (fun s => ds.foldl (pstep p) s) := by
  induction ds generalizing acc with
  | nil => cases h : acc.lookup p <;> simp [h]
  | cons d ds ih =>
    rw [List.foldl_cons, ih, lookup_ps_delivery]
    cases h : acc.lookup p <;> simp [h]

/-- C3 (corrected): in `get_player_summaries_single_match`, `balls_faced`
counts every delivery the player faced — wides and no-balls included, with
no legality test — and `balls_bowled` likewise counts every delivery the
player bowled; `runs` and `runs_conceded` also sum over all deliveries. -/
theorem c3_balls_faced_amended (md : MatchData) (p : String) (s0 : PStat)
    (h0 : (init_player_stats md.info.players).lookup p = some s0) :
    ∃ s, (player_stats_single_match md).lookup p = some s
      ∧ s.balls_faced = s0.balls_faced
          + (matchDeliveries md).countP (fun d => d.batter == some p)
      ∧ s.runs = s0.runs
          + (((matchDeliveries md).filter (fun d => d.batter == some p)).map
              (fun d => d.runs.batter)).sum
      ∧ s.balls_bowled = s0.balls_bowled
          + (matchDeliveries md).countP (fun d => d.bowler == some p)
      ∧ s.runs_conceded = s0.runs_conceded
          + (((matchDeliveries md).filter (fun d => d.bowler == some p)).map
              (fun d => d.runs.total)).sum := by
  refine ⟨(matchDeliveries md).foldl (pstep p) s0, ?_,
    foldl_pstep_balls_faced p (matchDeliveries md) s0,
    foldl_pstep_runs p (matchDeliveries md) s0,
    foldl_pstep_balls_bowled p (matchDeliveries md) s0,
    foldl_pstep_runs_conceded p (matchDeliveries md) s0⟩
  rw [player_stats_single_match, lookup_foldl_ps, h0]
  rfl

def c3cx_match : MatchData :=
  { info := exInfoAB,
    innings := [{ team := some "A",
                  overs := [{ over := some 0, deliveries := [dWide] }] }] }

/-- C3 counterexample: after a single wide, P has `balls_faced = 1` and Q
has `balls_bowled = 1`, although neither faced nor bowled any legal
delivery — the counters do not count only legal deliveries. -/
theorem c3_counterexample :
    ((player_stats_single_match c3cx_match).lookup "P").map
        (fun s => s.balls_faced) = some 1
  ∧ ((player_stats_single_match c3cx_match).lookup "Q").map
        (fun s => s.balls_bowled) = some 1
  ∧ (matchDeliveries c3cx_match).countP
        (fun d => d.batter == some "P" && isLegalDelivery d) = 0
  ∧ (matchDeliveries c3cx_match).countP
        (fun d => d.bowler == some "Q" && isLegalDelivery d) = 0 :=
  ⟨rfl, rfl, rfl, rfl⟩

theorem c3_balls_faced_amended_witness :
    ∃ s, (player_stats_single_match c3cx_match).lookup "P" = some s
      ∧ s.balls_faced = (initPStat "A").balls_faced
          + (matchDeliveries c3cx_match).countP (fun d => d.batter == some "P")
      ∧ s.runs = (initPStat "A").runs
          + (((matchDeliveries c3cx_match).filter (fun d => d.batter == some "P")).map
              (fun d => d.runs.batter)).sum
      ∧ s.balls_bowled = (initPStat "A").balls_bowled
          + (matchDeliveries c3cx_match).countP (fun d => d.bowler == some "P")
      ∧ s.runs_conceded = (initPStat "A").runs_conceded
          + (((matchDeliveries c3cx_match).filter (fun d => d.bowler == some "P")).map
              (fun d => d.runs.total)).sum :=
  c3_balls_faced_amended c3cx_match "P" (initPStat "A") rfl

/-! ## C4: cross-match aggregation (src/app.py lines 873-886)

`process_all_files` concatenates every match's batting (resp. bowling)
rows, groups by `(player_name, team)`, sums the additive columns, and only
then recomputes the ratio columns from the summed totals. -/

/-- `pd.concat(all_batting)` (line 874). -/
def all_batting_rows (mds : List MatchData) : List (String × PStat) :=
  (mds.map batting_rows).flatten

/-- `pd.concat(all_bowling)` (line 880). -/
def all_bowling_rows (mds : List MatchData) : List (String × PStat) :=
  (mds.map bowling_rows).flatten

/-- The groupby key `['player_name', 'team']`. -/
def batKey (q : String × PStat) : String × String := (q.1, q.2.team)

/-- The group of rows sharing one `(player_name, team)` key. -/
def aggGroup (rows : List (String × PStat)) (k : String × String) :
    List (String × PStat) :=
  rows.filter (fun q => batKey q == k)

def aggRuns (rows : List (String × PStat)) (k : String × String) : Int :=
  ((aggGroup rows k).map (fun q => q.2.runs)).sum

def aggBallsFaced (rows : List (String × PStat)) (k : String × String) : Nat :=
  ((aggGroup rows k).map (fun q => q.2.balls_faced)).sum

def aggFours (rows : List (String × PStat)) (k : String × String) : Nat :=
  ((aggGroup rows k).map (fun q => q.2.fours)).sum

def aggSixes (rows : List (String × PStat)) (k : String × String) : Nat :=
  ((aggGroup rows k).map (fun q => q.2.sixes)).sum

def aggRunsConceded (rows : List (String × PStat)) (k : String × String) : Int :=
  ((aggGroup rows k).map (fun q => q.2.runs_conceded)).sum

def aggBallsBowled (rows : List (String × PStat)) (k : String × String) : Nat :=
  ((aggGroup rows k).map (fun q => q.2.balls_bowled)).sum

def aggWickets (rows : List (String × PStat)) (k : String × String) : Nat :=
  ((aggGroup rows k).map (fun q => q.2.wickets)).sum

/-- One row of `agg_batting` (lines 876-877). -/
structure AggBatRow where
  player_name : String
  team : String
  runs : Int
  balls_faced : Nat
  fours : Nat
  sixes : Nat
  strike_rate : ℚ
  deriving DecidableEq

/-- One row of `agg_bowling` (lines 882-884; the `overs` display string is
omitted). -/
structure AggBowlRow where
  player_name : String
  team : String
  runs_conceded : Int
  balls_bowled : Nat
  wickets : Nat
  economy_rate : ℚ
  deriving DecidableEq

/-- `groupby(['player_name','team'])[['runs','balls_faced','fours','sixes']]
.sum()` followed by the `strike_rate` column computed from the summed
totals (lines 876-877).  pandas emits one row per distinct key; it sorts
keys whereas `dedup` keeps one occurrence per key in list order, which only
permutes rows. -/
def agg_batting (rows : List (String × PStat)) : List AggBatRow :=
  ((rows.map batKey).dedup).map (fun k =>
    { player_name := k.1, team := k.2,
      runs := aggRuns rows k,
      balls_faced := aggBallsFaced rows k,
      fours := aggFours rows k,
      sixes := aggSixes rows k,
      strike_rate := strike_rate_of (aggRuns rows k) (aggBallsFaced rows k) })

/-- Lines 882-884, analogously for bowling. -/
def agg_bowling (rows : List (String × PStat)) : List AggBowlRow :=
  ((rows.map batKey).dedup).map (fun k =>
    { player_name := k.1, team := k.2,
      runs_conceded := aggRunsConceded rows k,
      balls_bowled := aggBallsBowled rows k,
      wickets := aggWickets rows k,
      economy_rate := economy_rate_of (aggRunsConceded rows k) (aggBallsBowled rows k) })

/-- What the spec asserts of one aggregated batting row: additive fields
are group sums and the strike rate is recomputed from those sums. -/
def batRowOk (rows : List (String × PStat)) (row : AggBatRow) : Prop :=
  row.runs = aggRuns rows (row.player_name, row.team)
  ∧ row.balls_faced = aggBallsFaced rows (row.player_name, row.team)
  ∧ row.fours = aggFours rows (row.player_name, row.team)
  ∧ row.sixes = aggSixes rows (row.player_name, row.team)
  ∧ row.strike_rate = strike_rate_of row.runs row.balls_faced

def bowlRowOk (rows : List (String × PStat)) (row : AggBowlRow) : Prop :=
  row.runs_conceded = aggRunsConceded rows (row.player_name, row.team)
  ∧ row.balls_bowled = aggBallsBowled rows (row.player_name, row.team)
  ∧ row.wickets = aggWickets rows (row.player_name, row.team)
  ∧ row.economy_rate = economy_rate_of row.runs_conceded row.balls_bowled

/-- A two-match corpus for the "sum-based ratio differs from mean of
per-match ratios" half of C4: P scores 4 off the only ball of match 1 and
0 off three balls in match 2. -/
def c4d4 : Delivery :=
  { batter := some "P", bowler := some "Q",
    runs := { batter := 4, extras := 0, total := 4 },
    extras := none, wickets := [] }

def c4m1 : MatchData :=
  { info := exInfoAB,
    innings := [{ team := some "A",
                  overs := [{ over := some 0, deliveries := [c4d4] }] }] }

def c4m2 : MatchData :=
  { info := exInfoAB,
    innings := [{ team := some "A",
                  overs := [{ over := some 0,
                              deliveries := [dDot, dDot, dDot] }] }] }

def c4corpus : List MatchData := [c4m1, c4m2]

/-- The single aggregated batting row of `c4corpus`: 4 runs off 4 balls in
total, so the sum-based strike rate is `strike_rate_of 4 4 = 100`. -/
def c4row : AggBatRow :=
  { player_name := "P", team := "A", runs := 4, balls_faced := 4, fours := 1,
    sixes := 0, strike_rate := strike_rate_of 4 4 }

lemma rhe_intCast (n : ℤ) : rhe (n : ℚ) = n := by
  unfold rhe
  rw [Int.fract_intCast, Int.floor_intCast]
  norm_num

lemma strike_rate_4_4 : strike_rate_of 4 4 = 100 := by
  unfold strike_rate_of roundTo
  have h : ((4 : ℤ) : ℚ) / (if (4 : ℕ) = 0 then 1 else ((4 : ℕ) : ℚ)) * 100 * 10 ^ 2
      = ((10000 : ℤ) : ℚ) := by norm_num
  rw [h, rhe_intCast]
  norm_num

lemma strike_rate_4_1 : strike_rate_of 4 1 = 400 := by
  unfold strike_rate_of roundTo
  have h : ((4 : ℤ) : ℚ) / (if (1 : ℕ) = 0 then 1 else ((1 : ℕ) : ℚ)) * 100 * 10 ^ 2
      = ((40000 : ℤ) : ℚ) := by norm_num
  rw [h, rhe_intCast]
  norm_num

lemma strike_rate_0_3 : strike_rate_of 0 3 = 0 := by
  unfold strike_rate_of roundTo
  have h : ((0 : ℤ) : ℚ) / (if (3 : ℕ) = 0 then 1 else ((3 : ℕ) : ℚ)) * 100 * 10 ^ 2
      = ((0 : ℤ) : ℚ) := by norm_num
  rw [h, rhe_intCast]
  norm_num

/-- C4: every aggregated batting (resp. bowling) row carries the group sums
of the per-match additive fields, with the strike rate (resp. economy rate)
recomputed from those summed totals; and on `c4corpus` the aggregated
strike rate (100) differs from the arithmetic mean (200) of the two
per-match strike rates (400 and 0). -/
theorem c4_aggregation (mds : List MatchData) :
    (∀ row ∈ agg_batting (all_batting_rows mds), batRowOk (all_batting_rows mds) row)
  ∧ (∀ row ∈ agg_bowling (all_bowling_rows mds), bowlRowOk (all_bowling_rows mds) row)
  ∧ (agg_batting (all_batting_rows c4corpus) = [c4row]
      ∧ (batting_rows c4m1).map (fun q => strike_rate_of q.2.runs q.2.balls_faced)
          = [strike_rate_of 4 1]
      ∧ (batting_rows c4m2).map (fun q => strike_rate_of q.2.runs q.2.balls_faced)
          = [strike_rate_of 0 3]
      ∧ c4row.strike_rate
          ≠ (strike_rate_of 4 1 + strike_rate_of 0 3) / 2) := by
  refine ⟨?_, ?_, rfl, rfl, rfl, ?_⟩
  · intro row hrow
    obtain ⟨k, hk, hrowe⟩ := List.mem_map.mp hrow
    subst hrowe
    exact ⟨rfl, rfl, rfl, rfl, rfl⟩
  · intro row hrow
    obtain ⟨k, hk, hrowe⟩ := List.mem_map.mp hrow
    subst hrowe
    exact ⟨rfl, rfl, rfl, rfl⟩
  · show strike_rate_of 4 4 ≠ (strike_rate_of 4 1 + strike_rate_of 0 3) / 2
    rw [strike_rate_4_4, strike_rate_4_1, strike_rate_0_3]
    norm_num

theorem c4_aggregation_witness :
    batRowOk (all_batting_rows c4corpus) c4row :=
  (c4_aggregation c4corpus).1 c4row (List.mem_singleton_self c4row)

/-! ## C8: Markov-chain statistics (src/app.py lines 31-95, 487-680)

`calculate_markov_chain_stats` first flattens every legal delivery of the
corpus into a dict with team/over/phase labels (lines 506-539), then
reduces that list (lines 560-631); with `team_wise=True` it additionally
calls `calculate_team_stats` (lines 31-95) on the same flattened list for
each team (lines 669-679). -/

/-- One entry of `all_deliveries` (lines 525-538). -/
structure FlatDelivery where
  team : String
  over : Int
  ball : Nat
  runs_off_bat : Int
  total_runs : Int
  extras : Int
  is_wicket : Bool
  is_four : Bool
  is_six : Bool
  is_dot : Bool
  is_single : Bool
  phase : String
  deriving DecidableEq

/-- Lines 509-539 for one over: only legal deliveries are kept, but `ball`
is the `enumerate` position among all deliveries of the over. -/
def flat_of_over (inning_team : String) (o : OverRec) : List FlatDelivery :=
  (o.deliveries.enum.filter (fun q => isLegalDelivery q.2)).map (fun q =>
    { team := inning_team,
      over := o.over.getD 0,
      ball := q.1 + 1,
      runs_off_bat := q.2.runs.batter,
      total_runs := q.2.runs.total,
      extras := q.2.runs.extras,
      is_wicket := !q.2.wickets.isEmpty,
      is_four := q.2.runs.batter == (4 : Int),
      is_six := q.2.runs.batter == (6 : Int),
      is_dot := q.2.runs.total == (0 : Int),
      is_single := q.2.runs.batter == (1 : Int),
      phase := if o.over.getD 0 < 6 then "powerplay"
               else if o.over.getD 0 < 15 then "middle" else "death" })

/-- The flattened `all_deliveries` of lines 506-539. -/
def flatten_deliveries (mds : List MatchData) : List FlatDelivery :=
  (mds.map (fun md =>
    (md.innings.map (fun inn =>
      (inn.overs.map (flat_of_over (inn.team.getD "Unknown"))).flatten)).flatten)).flatten

/-- `[d for d in all_deliveries if d['team'] == team_name]` (line 42). -/
def team_dels (all_deliveries : List FlatDelivery) (team_name : String) :
    List FlatDelivery :=
  all_deliveries.filter (fun d => d.team == team_name)

/-- `[d for d in ds if d['phase'] == phase]` (lines 70 and 599). -/
def phase_dels (ds : List FlatDelivery) (phase : String) : List FlatDelivery :=
  ds.filter (fun d => d.phase == phase)

/-- The per-phase stats dict (identical field formulas at lines 73-82 and
602-611). -/
structure PhaseStatsR where
  balls : Nat
  avg_runs_per_ball : ℚ
  run_rate : ℚ
  dot_ball_percentage : ℚ
  single_percentage : ℚ
  four_percentage : ℚ
  six_percentage : ℚ
  wicket_percentage : ℚ
  deriving DecidableEq

/-- Lines 69-84: per-phase stats of `calculate_team_stats`; an empty phase
stores `None`. -/
def team_phase_stats (ds : List FlatDelivery) (phase : String) :
    Option PhaseStatsR :=
  if (phase_dels ds phase).isEmpty then none
  else some
    { balls := (phase_dels ds phase).length,
      avg_runs_per_ball := (((phase_dels ds phase).map (fun d => d.runs_off_bat)).sum : ℚ)
        / (phase_dels ds phase).length,
      run_rate := (((phase_dels ds phase).map (fun d => d.runs_off_bat)).sum : ℚ)
        / (phase_dels ds phase).length * 6,
      dot_ball_percentage := (((phase_dels ds phase).filter (fun d => d.is_dot)).length : ℚ)
        / (phase_dels ds phase).length * 100,
      single_percentage := (((phase_dels ds phase).filter (fun d => d.is_single)).length : ℚ)
        / (phase_dels ds phase).length * 100,
      four_percentage := (((phase_dels ds phase).filter (fun d => d.is_four)).length : ℚ)
        / (phase_dels ds phase).length * 100,
      six_percentage := (((phase_dels ds phase).filter (fun d => d.is_six)).length : ℚ)
        / (phase_dels ds phase).length * 100,
      wicket_percentage := (((phase_dels ds phase).filter (fun d => d.is_wicket)).length : ℚ)
        / (phase_dels ds phase).length * 100 }

/-- Lines 598-612: per-phase stats of the overall reduction; an empty phase
leaves the key unset, modelled as `none` like the team-wise `None`. -/
def overall_phase_stats (ds : List FlatDelivery) (phase : String) :
    Option PhaseStatsR :=
  if (phase_dels ds phase).isEmpty then none
  else some
    { balls := (phase_dels ds phase).length,
      avg_runs_per_ball := (((phase_dels ds phase).map (fun d => d.runs_off_bat)).sum : ℚ)
        / (phase_dels ds phase).length,
      run_rate := (((phase_dels ds phase).map (fun d => d.runs_off_bat)).sum : ℚ)
        / (phase_dels ds phase).length * 6,
      dot_ball_percentage := (((phase_dels ds phase).filter (fun d => d.is_dot)).length : ℚ)
        / (phase_dels ds phase).length * 100,
      single_percentage := (((phase_dels ds phase).filter (fun d => d.is_single)).length : ℚ)
        / (phase_dels ds phase).length * 100,
      four_percentage := (((phase_dels ds phase).filter (fun d => d.is_four)).length : ℚ)
        / (phase_dels ds phase).length * 100,
      six_percentage := (((phase_dels ds phase).filter (fun d => d.is_six)).length : ℚ)
        / (phase_dels ds phase).length * 100,
      wicket_percentage := (((phase_dels ds phase).filter (fun d => d.is_wicket)).length : ℚ)
        / (phase_dels ds phase).length * 100 }

/-- The dict built by `calculate_team_stats` (lines 31-95); `None` on an
empty team filter, optional `avg_balls_between_*` keys as `Option`. -/
structure TeamStatsR where
  team_name : String
  total_balls : Nat
  avg_runs_per_ball : ℚ
  avg_run_rate : ℚ
  dot_ball_percentage : ℚ
  single_percentage : ℚ
  four_percentage : ℚ
  six_percentage : ℚ
  wicket_percentage : ℚ
  boundary_percentage : ℚ
  runs_probability : List ℚ
  powerplay_stats : Option PhaseStatsR
  middle_stats : Option PhaseStatsR
  death_stats : Option PhaseStatsR
  avg_balls_between_wickets : Option ℚ
  avg_balls_between_boundaries : Option ℚ
  deriving DecidableEq

def calculate_team_stats (all_deliveries : List FlatDelivery)
    (team_name : String) : Option TeamStatsR :=
  if (team_dels all_deliveries team_name).isEmpty then none
  else some
    { team_name := team_name,
      total_balls := (team_dels all_deliveries team_name).length,
      avg_runs_per_ball :=
        (((team_dels all_deliveries team_name).map (fun d => d.runs_off_bat)).sum : ℚ)
          / (team_dels all_deliveries team_name).length,
      avg_run_rate :=
        (((team_dels all_deliveries team_name).map (fun d => d.runs_off_bat)).sum : ℚ)
          / (team_dels all_deliveries team_name).length * 6,
      dot_ball_percentage :=
        (((team_dels all_deliveries team_name).filter (fun d => d.is_dot)).length : ℚ)
          / (team_dels all_deliveries team_name).length * 100,
      single_percentage :=
        (((team_dels all_deliveries team_name).filter (fun d => d.is_single)).length : ℚ)
          / (team_dels all_deliveries team_name).length * 100,
      four_percentage :=
        (((team_dels all_deliveries team_name).filter (fun d => d.is_four)).length : ℚ)
          / (team_dels all_deliveries team_name).length * 100,
      six_percentage :=
        (((team_dels all_deliveries team_name).filter (fun d => d.is_six)).length : ℚ)
          / (team_dels all_deliveries team_name).length * 100,
      wicket_percentage :=
        (((team_dels all_deliveries team_name).filter (fun d => d.is_wicket)).length : ℚ)
          / (team_dels all_deliveries team_name).length * 100,
      boundary_percentage :=
        (((team_dels all_deliveries team_name).filter (fun d => d.is_four || d.is_six)).length : ℚ)
          / (team_dels all_deliveries team_name).length * 100,
      runs_probability := (List.range 7).map (fun r =>
        (((team_dels all_deliveries team_name).filter
            (fun d => d.runs_off_bat == (r : Int))).length : ℚ)
          / (team_dels all_deliveries team_name).length * 100),
      powerplay_stats := team_phase_stats (team_dels all_deliveries team_name) "powerplay",
      middle_stats := team_phase_stats (team_dels all_deliveries team_name) "middle",
      death_stats := team_phase_stats (team_dels all_deliveries team_name) "death",
      avg_balls_between_wickets :=
        if ((team_dels all_deliveries team_name).filter (fun d => d.is_wicket)).isEmpty
        then none
        else some (((team_dels all_deliveries team_name).length : ℚ)
          / ((team_dels all_deliveries team_name).filter (fun d => d.is_wicket)).length),
      avg_balls_between_boundaries :=
        if ((team_dels all_deliveries team_name).filter (fun d => d.is_four || d.is_six)).isEmpty
        then none
        else some (((team_dels all_deliveries team_name).length : ℚ)
          / ((team_dels all_deliveries team_name).filter
              (fun d => d.is_four || d.is_six)).length) }

/-- The delivery-level fields of the overall `stats` dict (lines 563-631);
the `"error"` return for an empty list is `none`, and the optional
`avg_balls_between_wickets` / `boundary_percentage` /
`avg_balls_between_boundaries` keys are `Option`. -/
structure OverallMarkovStats where
  total_balls_analyzed : Nat
  avg_runs_per_ball : ℚ
  avg_total_runs_per_ball : ℚ
  avg_run_rate : ℚ
  avg_total_run_rate : ℚ
  dot_ball_percentage : ℚ
  single_percentage : ℚ
  four_percentage : ℚ
  six_percentage : ℚ
  wicket_percentage : ℚ
  powerplay_stats : Option PhaseStatsR
  middle_stats : Option PhaseStatsR
  death_stats : Option PhaseStatsR
  runs_probability : List ℚ
  avg_balls_between_wickets : Option ℚ
  boundary_percentage : Option ℚ
  avg_balls_between_boundaries : Option ℚ
  deriving DecidableEq

def overall_markov_reduction (all_deliveries : List FlatDelivery) :
    Option OverallMarkovStats :=
  if all_deliveries.isEmpty then none
  else some
    { total_balls_analyzed := all_deliveries.length,
      avg_runs_per_ball :=
        ((all_deliveries.map (fun d => d.runs_off_bat)).sum : ℚ)
          / all_deliveries.length,
      avg_total_runs_per_ball :=
        ((all_deliveries.map (fun d => d.total_runs)).sum : ℚ)
          / all_deliveries.length,
      avg_run_rate :=
        ((all_deliveries.map (fun d => d.runs_off_bat)).sum : ℚ)
          / all_deliveries.length * 6,
      avg_total_run_rate :=
        ((all_deliveries.map (fun d => d.total_runs)).sum : ℚ)
          / all_deliveries.length * 6,
      dot_ball_percentage :=
        ((all_deliveries.filter (fun d => d.is_dot)).length : ℚ)
          / all_deliveries.length * 100,
      single_percentage :=
        ((all_deliveries.filter (fun d => d.is_single)).length : ℚ)
          / all_deliveries.length * 100,
      four_percentage :=
        ((all_deliveries.filter (fun d => d.is_four)).length : ℚ)
          / all_deliveries.length * 100,
      six_percentage :=
        ((all_deliveries.filter (fun d => d.is_six)).length : ℚ)
          / all_deliveries.length * 100,
      wicket_percentage :=
        ((all_deliveries.filter (fun d => d.is_wicket)).length : ℚ)
          / all_deliveries.length * 100,
      powerplay_stats := overall_phase_stats all_deliveries "powerplay",
      middle_stats := overall_phase_stats all_deliveries "middle",
      death_stats := overall_phase_stats all_deliveries "death",
      runs_probability := (List.range 7).map (fun r =>
        ((all_deliveries.filter (fun d => d.runs_off_bat == (r : Int))).length : ℚ)
          / all_deliveries.length * 100),
      avg_balls_between_wickets :=
        if (all_deliveries.filter (fun d => d.is_wicket)).isEmpty then none
        else some ((all_deliveries.length : ℚ)
          / (all_deliveries.filter (fun d => d.is_wicket)).length),
      boundary_percentage :=
        if (all_deliveries.filter (fun d => d.is_four || d.is_six)).isEmpty then none
        else some (((all_deliveries.filter (fun d => d.is_four || d.is_six)).length : ℚ)
          / all_deliveries.length * 100),
      avg_balls_between_boundaries :=
        if (all_deliveries.filter (fun d => d.is_four || d.is_six)).isEmpty then none
        else some ((all_deliveries.length : ℚ)
          / (all_deliveries.filter (fun d => d.is_four || d.is_six)).length) }

/-- C8: the team-wise Markov statistics coincide with the overall reduction
applied to the flattened legal deliveries filtered to that team — total
balls, mean runs per ball, run rate, the five outcome percentages, the
runs-0..6 probabilities, all three per-phase statistics, and the mean
balls between wickets and between boundaries. -/
theorem c8_team_stats_refinement (mds : List MatchData) (team : String)
    (ts : TeamStatsR)
    (h : calculate_team_stats (flatten_deliveries mds) team = some ts) :
    ∃ os, overall_markov_reduction (team_dels (flatten_deliveries mds) team)
        = some os
      ∧ ts.total_balls = os.total_balls_analyzed
      ∧ ts.avg_runs_per_ball = os.avg_runs_per_ball
      ∧ ts.avg_run_rate = os.avg_run_rate
      ∧ ts.dot_ball_percentage = os.dot_ball_percentage
      ∧ ts.single_percentage = os.single_percentage
      ∧ ts.four_percentage = os.four_percentage
      ∧ ts.six_percentage = os.six_percentage
      ∧ ts.wicket_percentage = os.wicket_percentage
      ∧ ts.runs_probability = os.runs_probability
      ∧ ts.powerplay_stats = os.powerplay_stats
      ∧ ts.middle_stats = os.middle_stats
      ∧ ts.death_stats = os.death_stats
      ∧ ts.avg_balls_between_wickets = os.avg_balls_between_wickets
      ∧ ts.avg_balls_between_boundaries = os.avg_balls_between_boundaries := by
  unfold calculate_team_stats at h
  split at h
  · exact absurd h (by simp)
  · rename_i hcond
    injection h with h
    subst h
    unfold overall_markov_reduction
    rw [if_neg hcond]
    exact ⟨_, rfl, rfl, rfl, rfl, rfl, rfl, rfl, rfl, rfl, rfl, rfl, rfl,
      rfl, rfl, rfl⟩

/-- A one-delivery corpus for the C8 witness. -/
def c8_match : MatchData :=
  { info := exInfoAB,
    innings := [{ team := some "A",
                  overs := [{ over := some 0, deliveries := [dSingle] }] }] }

/-- The team-stats record of team A in `c8_match`, extracted from the
computation itself (its `isSome` check reduces definitionally). -/
def c8_ts : TeamStatsR :=
  (calculate_team_stats (flatten_deliveries [c8_match]) "A").get rfl

theorem c8_team_stats_refinement_witness :
    ∃ os, overall_markov_reduction (team_dels (flatten_deliveries [c8_match]) "A")
        = some os
      ∧ c8_ts.total_balls = os.total_balls_analyzed
      ∧ c8_ts.avg_runs_per_ball = os.avg_runs_per_ball
      ∧ c8_ts.avg_run_rate = os.avg_run_rate
      ∧ c8_ts.dot_ball_percentage = os.dot_ball_percentage
      ∧ c8_ts.single_percentage = os.single_percentage
      ∧ c8_ts.four_percentage = os.four_percentage
      ∧ c8_ts.six_percentage = os.six_percentage
      ∧ c8_ts.wicket_percentage = os.wicket_percentage
      ∧ c8_ts.runs_probability = os.runs_probability
      ∧ c8_ts.powerplay_stats = os.powerplay_stats
      ∧ c8_ts.middle_stats = os.middle_stats
      ∧ c8_ts.death_stats = os.death_stats
      ∧ c8_ts.avg_balls_between_wickets = os.avg_balls_between_wickets
      ∧ c8_ts.avg_balls_between_boundaries = os.avg_balls_between_boundaries :=
  c8_team_stats_refinement [c8_match] "A" c8_ts
    (@Option.some_get TeamStatsR
      (calculate_team_stats (flatten_deliveries [c8_match]) "A") rfl).symm

/-! ## C9: toss-decision win rates (src/app.py lines 97-267, 269-485)

The venue-wise path (lines 230-250) tallies bat-first / bowl-first matches
and wins over the per-venue parallel lists of toss winners, match winners
and toss decisions, skipping indices whose match winner is `'No Result'`;
the team-wise path (lines 341-354, 452-454) tallies them inside the
`toss_winner == team` branch with no such decisive filter. -/

/-- Dict-keyed accumulation in input order (lines 109-139) equals
filtering the corpus by that venue key. -/
def venue_matches (data_list : List MatchData) (venue : String) :
    List MatchData :=
  data_list.filter (fun m => (m.info.venue.getD "Unknown Venue") == venue)

/-- The parallel `toss_winners` / `match_winners` / `toss_decisions`
lists of one venue (lines 137-139), zipped into triples. -/
def venue_triples (data_list : List MatchData) (venue : String) :
    List (String × String × String) :=
  (venue_matches data_list venue).map (fun m =>
    (m.info.tossWinner.getD "Unknown",
     m.info.outcomeWinner.getD "No Result",
     m.info.tossDecision.getD "Unknown"))

/-- Lines 236-241: indices with a decisive winner and decision `'bat'`. -/
def venue_bat_first_matches (ts : List (String × String × String)) : Nat :=
  ts.countP (fun q => decide (q.2.1 ≠ "No Result") && decide (q.2.2 = "bat"))

/-- Lines 240-241: of those, the ones where the toss winner won. -/
def venue_bat_first_wins (ts : List (String × String × String)) : Nat :=
  ts.countP (fun q => decide (q.2.1 ≠ "No Result") && decide (q.2.2 = "bat")
    && decide (q.2.1 = q.1))

/-- Lines 242-245, decision `'field'`. -/
def venue_bowl_first_matches (ts : List (String × String × String)) : Nat :=
  ts.countP (fun q => decide (q.2.1 ≠ "No Result") && decide (q.2.2 = "field"))

def venue_bowl_first_wins (ts : List (String × String × String)) : Nat :=
  ts.countP (fun q => decide (q.2.1 ≠ "No Result") && decide (q.2.2 = "field")
    && decide (q.2.1 = q.1))

/-- Lines 218 and 247-248: 0 when no qualifying match exists, otherwise
`(bat_first_wins / bat_first_matches) * 100`. -/
def venue_bat_first_win_rate (data_list : List MatchData) (venue : String) : ℚ :=
  if 0 < venue_bat_first_matches (venue_triples data_list venue) then
    (venue_bat_first_wins (venue_triples data_list venue) : ℚ)
      / (venue_bat_first_matches (venue_triples data_list venue) : ℚ) * 100
  else 0

/-- Lines 219 and 249-250. -/
def venue_bowl_first_win_rate (data_list : List MatchData) (venue : String) : ℚ :=
  if 0 < venue_bowl_first_matches (venue_triples data_list venue) then
    (venue_bowl_first_wins (venue_triples data_list venue) : ℚ)
      / (venue_bowl_first_matches (venue_triples data_list venue) : ℚ) * 100
  else 0

/-- The toss-related counters of one team's `team_stats` dict
(lines 291-301). -/
structure TeamTossStats where
  matches_played : Nat
  matches_won : Nat
  toss_won : Nat
  toss_won_match_won : Nat
  bat_first_matches : Nat
  bat_first_wins : Nat
  bowl_first_matches : Nat
  bowl_first_wins : Nat
  deriving DecidableEq

def initTeamTossStats : TeamTossStats :=
  { matches_played := 0, matches_won := 0, toss_won := 0,
    toss_won_match_won := 0, bat_first_matches := 0, bat_first_wins := 0,
    bowl_first_matches := 0, bowl_first_wins := 0 }

/-- Lines 323-354 specialised to one team of interest: the loop body runs
for the team only when it is listed in the match's `teams`. -/
def tts_match (team : String) (acc : TeamTossStats) (m : MatchData) :
    TeamTossStats :=
  if team ∈ m.info.teams then
    let winner := m.info.outcomeWinner.getD "No Result"
    let toss_winner := m.info.tossWinner.getD "Unknown"
    let toss_decision := m.info.tossDecision.getD "Unknown"
    let a1 := { acc with matches_played := acc.matches_played + 1 }
    let a2 := if winner = team then
      { a1 with matches_won := a1.matches_won + 1 } else a1
    if toss_winner = team then
      let a3 := { a2 with toss_won := a2.toss_won + 1 }
      let a4 := if winner = team then
        { a3 with toss_won_match_won := a3.toss_won_match_won + 1 } else a3
      if toss_decision = "bat" then
        let a5 := { a4 with bat_first_matches := a4.bat_first_matches + 1 }
        if winner = team then
          { a5 with bat_first_wins := a5.bat_first_wins + 1 } else a5
      else if toss_decision = "field" then
        let a5 := { a4 with bowl_first_matches := a4.bowl_first_matches + 1 }
        if winner = team then
          { a5 with bowl_first_wins := a5.bowl_first_wins + 1 } else a5
      else a4
    else a2
  else acc

def team_toss_stats (data_list : List MatchData) (team : String) :
    TeamTossStats :=
  data_list.foldl (tts_match team) initTeamTossStats

/-- Line 453: denominator `bat_first_matches`, with no exclusion of
no-result matches. -/
def team_bat_first_win_rate (data_list : List MatchData) (team : String) : ℚ :=
  if 0 < (team_toss_stats data_list team).bat_first_matches then
    ((team_toss_stats data_list team).bat_first_wins : ℚ)
      / ((team_toss_stats data_list team).bat_first_matches : ℚ) * 100
  else 0

/-- Line 454. -/
def team_bowl_first_win_rate (data_list : List MatchData) (team : String) : ℚ :=
  if 0 < (team_toss_stats data_list team).bowl_first_matches then
    ((team_toss_stats data_list team).bowl_first_wins : ℚ)
      / ((team_toss_stats data_list team).bowl_first_matches : ℚ) * 100
  else 0

/-- Venue-level description: decisive match whose toss decision was `bat`. -/
def vBatPred (m : MatchData) : Bool :=
  decide ((m.info.outcomeWinner.getD "No Result") ≠ "No Result")
    && decide ((m.info.tossDecision.getD "Unknown") = "bat")

def vBatWinPred (m : MatchData) : Bool :=
  vBatPred m && decide ((m.info.outcomeWinner.getD "No Result")
    = (m.info.tossWinner.getD "Unknown"))

def vBowlPred (m : MatchData) : Bool :=
  decide ((m.info.outcomeWinner.getD "No Result") ≠ "No Result")
    && decide ((m.info.tossDecision.getD "Unknown") = "field")

def vBowlWinPred (m : MatchData) : Bool :=
  vBowlPred m && decide ((m.info.outcomeWinner.getD "No Result")
    = (m.info.tossWinner.getD "Unknown"))

/-- Team-level description of what the code actually counts in the
denominator: the team is listed, won the toss and chose to bat — with no
decisiveness requirement. -/
def teamBatPred (team : String) (m : MatchData) : Bool :=
  decide (team ∈ m.info.teams)
    && decide ((m.info.tossWinner.getD "Unknown") = team)
    && decide ((m.info.tossDecision.getD "Unknown") = "bat")

def teamBatWinPred (team : String) (m : MatchData) : Bool :=
  teamBatPred team m && decide ((m.info.outcomeWinner.getD "No Result") = team)

def teamBowlPred (team : String) (m : MatchData) : Bool :=
  decide (team ∈ m.info.teams)
    && decide ((m.info.tossWinner.getD "Unknown") = team)
    && decide ((m.info.tossDecision.getD "Unknown") = "field")

def teamBowlWinPred (team : String) (m : MatchData) : Bool :=
  teamBowlPred team m && decide ((m.info.outcomeWinner.getD "No Result") = team)

lemma tts_match_bat_first_matches (team : String) (acc : TeamTossStats)
    (m : MatchData) :
    (tts_match team acc m).bat_first_matches =
      acc.bat_first_matches + (if teamBatPred team m then 1 else 0) := by
  simp only [tts_match, teamBatPred]
  split_ifs <;> simp_all

lemma tts_match_bat_first_wins (team : String) (acc : TeamTossStats)
    (m : MatchData) :
    (tts_match team acc m).bat_first_wins =
      acc.bat_first_wins + (if teamBatWinPred team m then 1 else 0) := by
  simp only [tts_match, teamBatWinPred, teamBatPred]
  split_ifs <;> simp_all

lemma tts_match_bowl_first_matches (team : String) (acc : TeamTossStats)
    (m : MatchData) :
    (tts_match team acc m).bowl_first_matches =
      acc.bowl_first_matches + (if teamBowlPred team m then 1 else 0) := by
  simp only [tts_match, teamBowlPred]
  split_ifs <;> simp_all

lemma tts_match_bowl_first_wins (team : String) (acc : TeamTossStats)
    (m : MatchData) :
    (tts_match team acc m).bowl_first_wins =
      acc.bowl_first_wins + (if teamBowlWinPred team m then 1 else 0) := by
  simp only [tts_match, teamBowlWinPred, teamBowlPred]
  split_ifs <;> simp_all

lemma foldl_tts_bat_first_matches (team : String) (data : List MatchData)
    (acc : TeamTossStats) :
    (data.foldl (tts_match team) acc).bat_first_matches =
      acc.bat_first_matches + data.countP (teamBatPred team) := by
  induction data generalizing acc with
  | nil => simp
  | cons m data ih =>
    rw [List.foldl_cons, ih, tts_match_bat_first_matches, List.countP_cons]
    cases h : teamBatPred team m <;> simp [h] <;> omega

lemma foldl_tts_bat_first_wins (team : String) (data : List MatchData)
    (acc : TeamTossStats) :
    (data.foldl (tts_match team) acc).bat_first_wins =
      acc.bat_first_wins + data.countP (teamBatWinPred team) := by
  induction data generalizing acc with
  | nil => simp
  | cons m data ih =>
    rw [List.foldl_cons, ih, tts_match_bat_first_wins, List.countP_cons]
    cases h : teamBatWinPred team m <;> simp [h] <;> omega

lemma foldl_tts_bowl_first_matches (team : String) (data : List MatchData)
    (acc : TeamTossStats) :
    (data.foldl (tts_match team) acc).bowl_first_matches =
      acc.bowl_first_matches + data.countP (teamBowlPred team) := by
  induction data generalizing acc with
  | nil => simp
  | cons m data ih =>
    rw [List.foldl_cons, ih, tts_match_bowl_first_matches, List.countP_cons]
    cases h : teamBowlPred team m <;> simp [h] <;> omega

lemma foldl_tts_bowl_first_wins (team : String) (data : List MatchData)
    (acc : TeamTossStats) :
    (data.foldl (tts_match team) acc).bowl_first_wins =
      acc.bowl_first_wins + data.countP (teamBowlWinPred team) := by
  induction data generalizing acc with
  | nil => simp
  | cons m data ih =>
    rw [List.foldl_cons, ih, tts_match_bowl_first_wins, List.countP_cons]
    cases h : teamBowlWinPred team m <;> simp [h] <;> omega

/-- C9 (corrected): the venue-wise bat-first and field-first win rates do
restrict numerator and denominator to decisive matches with that toss
decision (the numerator counting those won by the toss winner); but the
team-wise rates count — in numerator and denominator alike — the matches
in which the team itself won the toss and chose that decision, with
no-result matches NOT excluded from the denominator. -/
theorem c9_win_rates_amended (data_list : List MatchData)
    (venue team : String) :
    (venue_bat_first_win_rate data_list venue =
      if 0 < (venue_matches data_list venue).countP vBatPred then
        ((venue_matches data_list venue).countP vBatWinPred : ℚ)
          / ((venue_matches data_list venue).countP vBatPred : ℚ) * 100
      else 0)
  ∧ (venue_bowl_first_win_rate data_list venue =
      if 0 < (venue_matches data_list venue).countP vBowlPred then
        ((venue_matches data_list venue).countP vBowlWinPred : ℚ)
          / ((venue_matches data_list venue).countP vBowlPred : ℚ) * 100
      else 0)
  ∧ (team_bat_first_win_rate data_list team =
      if 0 < data_list.countP (teamBatPred team) then
        (data_list.countP (teamBatWinPred team) : ℚ)
          / (data_list.countP (teamBatPred team) : ℚ) * 100
      else 0)
  ∧ (team_bowl_first_win_rate data_list team =
      if 0 < data_list.countP (teamBowlPred team) then
        (data_list.countP (teamBowlWinPred team) : ℚ)
          / (data_list.countP (teamBowlPred team) : ℚ) * 100
      else 0) := by
  refine ⟨?_, ?_, ?_, ?_⟩
  · have hm : venue_bat_first_matches (venue_triples data_list venue)
        = (venue_matches data_list venue).countP vBatPred := by
      unfold venue_bat_first_matches venue_triples
      rw [List.countP_map]
      rfl
    have hw : venue_bat_first_wins (venue_triples data_list venue)
        = (venue_matches data_list venue).countP vBatWinPred := by
      unfold venue_bat_first_wins venue_triples
      rw [List.countP_map]
      rfl
    unfold venue_bat_first_win_rate
    rw [hm, hw]
  · have hm : venue_bowl_first_matches (venue_triples data_list venue)
        = (venue_matches data_list venue).countP vBowlPred := by
      unfold venue_bowl_first_matches venue_triples
      rw [List.countP_map]
      rfl
    have hw : venue_bowl_first_wins (venue_triples data_list venue)
        = (venue_matches data_list venue).countP vBowlWinPred := by
      unfold venue_bowl_first_wins venue_triples
      rw [List.countP_map]
      rfl
    unfold venue_bowl_first_win_rate
    rw [hm, hw]
  · have hm := foldl_tts_bat_first_matches team data_list initTeamTossStats
    have hw := foldl_tts_bat_first_wins team data_list initTeamTossStats
    unfold team_bat_first_win_rate team_toss_stats
    rw [hm, hw]
    simp [initTeamTossStats]
  · have hm := foldl_tts_bowl_first_matches team data_list initTeamTossStats
    have hw := foldl_tts_bowl_first_wins team data_list initTeamTossStats
    unfold team_bowl_first_win_rate team_toss_stats
    rw [hm, hw]
    simp [initTeamTossStats]

/-- Toss won by A choosing bat; A wins. -/
def c9m1 : MatchData :=
  { info := { teams := ["A", "B"],
              toss := some { winner := some "A", decision := some "bat" },
              outcome := some { winner := some "A", result := none },
              venue := some "V", players := [] },
    innings := [] }

/-- Toss won by A choosing bat; no result. -/
def c9m2 : MatchData :=
  { info := { teams := ["A", "B"],
              toss := some { winner := some "A", decision := some "bat" },
              outcome := none,
              venue := some "V", players := [] },
    innings := [] }

def c9corpus : List MatchData := [c9m1, c9m2]

/-- The team-grouping bat-first win rate as the SPEC describes it:
denominator restricted to the team's decisive toss-won bat-first matches
(claim-side reference definition, for comparison with the code's
`team_bat_first_win_rate`). -/
def spec_team_bat_first_win_rate (data_list : List MatchData)
    (team : String) : ℚ :=
  if 0 < data_list.countP (fun m => teamBatPred team m
      && decide ((m.info.outcomeWinner.getD "No Result") ≠ "No Result")) then
    (data_list.countP (fun m => teamBatPred team m
        && decide ((m.info.outcomeWinner.getD "No Result") = team)) : ℚ)
      / (data_list.countP (fun m => teamBatPred team m
          && decide ((m.info.outcomeWinner.getD "No Result") ≠ "No Result")) : ℚ)
      * 100
  else 0

/-- C9 counterexample: team A won the toss and batted in both matches of
`c9corpus` but only match 1 was decisive (A won it).  The code reports a
team bat-first win rate of 50 (denominator 2, no-result included); the
spec's decisive-denominator description gives 100. -/
theorem c9_counterexample :
    team_bat_first_win_rate c9corpus "A" = 50
  ∧ spec_team_bat_first_win_rate c9corpus "A" = 100
  ∧ (50 : ℚ) ≠ 100 := by
  refine ⟨?_, ?_, by norm_num⟩
  · have hm : (team_toss_stats c9corpus "A").bat_first_matches = 2 := rfl
    have hw : (team_toss_stats c9corpus "A").bat_first_wins = 1 := rfl
    unfold team_bat_first_win_rate
    rw [hm, hw]
    norm_num
  · have hm : c9corpus.countP (fun m => teamBatPred "A" m
        && decide ((m.info.outcomeWinner.getD "No Result") ≠ "No Result")) = 1 := rfl
    have hw : c9corpus.countP (fun m => teamBatPred "A" m
        && decide ((m.info.outcomeWinner.getD "No Result") = "A")) = 1 := rfl
    unfold spec_team_bat_first_win_rate
    rw [hm, hw]
    norm_num

theorem c9_win_rates_amended_witness :
    (venue_bat_first_win_rate c9corpus "V" =
      if 0 < (venue_matches c9corpus "V").countP vBatPred then
        ((venue_matches c9corpus "V").countP vBatWinPred : ℚ)
          / ((venue_matches c9corpus "V").countP vBatPred : ℚ) * 100
      else 0)
  ∧ (venue_bowl_first_win_rate c9corpus "V" =
      if 0 < (venue_matches c9corpus "V").countP vBowlPred then
        ((venue_matches c9corpus "V").countP vBowlWinPred : ℚ)
          / ((venue_matches c9corpus "V").countP vBowlPred : ℚ) * 100
      else 0)
  ∧ (team_bat_first_win_rate c9corpus "A" =
      if 0 < c9corpus.countP (teamBatPred "A") then
        (c9corpus.countP (teamBatWinPred "A") : ℚ)
          / (c9corpus.countP (teamBatPred "A") : ℚ) * 100
      else 0)
  ∧ (team_bowl_first_win_rate c9corpus "A" =
      if 0 < c9corpus.countP (teamBowlPred "A") then
        (c9corpus.countP (teamBowlWinPred "A") : ℚ)
          / (c9corpus.countP (teamBowlPred "A") : ℚ) * 100
      else 0) :=
  c9_win_rates_amended c9corpus "V" "A"

end Cricket
